import Mathlib

/-!
# Verification of the nora GPU resource / render-state core

Shallow embedding of the resource stores (textures, shaders), the sampler
manager, the render state, mesh drawing and geometry validation of the
`maja42/nora` rendering engine, together with proofs and refutations of the
specification claims.

Go maps are embedded as association lists; Go's value semantics for map
reads (a lookup returns a *copy* of the stored struct, mutations of that
copy are invisible unless written back) is mirrored faithfully, because
several behaviours of the source depend on it.
-/

namespace Nora

/-! ## Association lists (Go maps) -/

/-- Lookup in an association list (Go `v, ok := m[k]`). -/
def lookupA {κ ν : Type} [DecidableEq κ] (k : κ) : List (κ × ν) → Option ν
  | [] => none
  | (k', v) :: rest => if k = k' then some v else lookupA k rest

/-- Insert/replace in an association list (Go `m[k] = v`). -/
def insertA {κ ν : Type} [DecidableEq κ] (k : κ) (v : ν) : List (κ × ν) → List (κ × ν)
  | [] => [(k, v)]
  | (k', v') :: rest => if k = k' then (k, v) :: rest else (k', v') :: insertA k v rest

/-- Delete from an association list (Go `delete(m, k)`). -/
def eraseA {κ ν : Type} [DecidableEq κ] (k : κ) : List (κ × ν) → List (κ × ν)
  | [] => []
  | (k', v') :: rest => if k = k' then rest else (k', v') :: eraseA k rest

/-! ## Basic value types -/

/-- Go `TextureKey` is used to connect textures with materials. -/
abbrev TextureKey := String

/-- Go `ShaderProgKey` is used to connect shader programs with materials. -/
abbrev ShaderProgKey := String

/-- Texture sizes (`mgl32.Vec2`); the sizes stored by the store are pixel
counts coming from image bounds, hence naturals. -/
structure Vec2 where
  x : Nat
  y : Nat
deriving DecidableEq

/-- Payload type of `float32` data (uniform values, vertex floats).  None of
the verified code ever inspects these values — they are only stored, counted
and forwarded to the GPU — so they are modelled as opaque integers.  (The
one place `float32` *arithmetic* matters, the divisibility check of
`AssertValidGeometry`, operates on lengths and counts and is modelled
exactly; see the binary32 section.) -/
abbrev Float32 := Int

/-- Go `texID` / `sProgID`: uniquely identifies one concrete build of the GPU
object behind a key (`id` from a monotonic counter, `generation` bumped on
every successful rebuild). -/
structure VersionedID where
  id : Nat
  generation : Nat
deriving DecidableEq

/-- Go `TextureProperties` (min/mag filter, wrap modes); `gl.Enum` values. -/
structure TextureProperties where
  MinFilter : Nat
  MagFilter : Nat
  WrapS : Nat
  WrapT : Nat
deriving DecidableEq

/-- Go `TextureDefinition`: path + sampling properties.  Paths are modelled as
already `filepath.Clean`-normalized strings. -/
structure TextureDefinition where
  Path : String
  Properties : TextureProperties
deriving DecidableEq

/-- The GPU texture object (`texture`): GL handle + size of the loaded image. -/
structure Texture where
  tex : Nat
  size : Vec2
deriving DecidableEq

/-- The filesystem as seen by `texture.Load`: maps a path to the decoded
image size, or `none` when opening/decoding fails. -/
abbrev FileSystem := String → Option Vec2

/-- Go `texture.Load`: reads and decodes the file; on success stores the image
size on the texture object, on failure leaves the object untouched and
returns an error. -/
def Texture.load (fs : FileSystem) (path : String) (t : Texture) :
    Texture × Except String Vec2 :=
  match fs path with
  | none => (t, .error ("open texture file " ++ path))
  | some sz => ({ t with size := sz }, .ok sz)

deriving instance DecidableEq for Except

/-! ## TextureStore -/

/-- Go `loadedTexture`: one store entry (live object, scratch slot for reload,
definition). -/
structure LoadedTexture where
  id : VersionedID
  texture : Texture
  intermediateTexture : Option Texture
  definition : TextureDefinition
deriving DecidableEq

/-- Go `TextureStore` together with the process-wide counters it draws from:
`texIDSeq` (the `id` sequence) and `glTexSeq` (GL texture handles created by
`gl.CreateTexture`).  `watches` is the filesystem watcher's path→key
registry. -/
structure TextureStore where
  textures : List (TextureKey × LoadedTexture)
  watches : List (String × TextureKey)
  texIDSeq : Nat
  glTexSeq : Nat
deriving DecidableEq

/-- Go `newTextureStore` (with fresh counters). -/
def TextureStore.initial : TextureStore :=
  { textures := [], watches := [], texIDSeq := 0, glTexSeq := 0 }

/-- Go `TextureStore.reloadTexture`: rebuilds the key's definition into the
intermediate slot; only on success swaps live⇄intermediate and increments
the generation.  The map entry is a value copy, so an intermediate texture
allocated on the failure path is not written back (mirrors the Go struct
copy). -/
def TextureStore.reloadTexture (fs : FileSystem) (key : TextureKey)
    (s : TextureStore) : TextureStore × Except String Vec2 :=
  match lookupA key s.textures with
  | none => (s, .error ("texture " ++ key ++ " is not loaded"))
  | some lt =>
    -- if loadedTexture.intermediateTexture == nil { ... newTexture() }
    let alloc : TextureStore × Texture :=
      match lt.intermediateTexture with
      | some it => (s, it)
      | none => ({ s with glTexSeq := s.glTexSeq + 1 },
                 { tex := s.glTexSeq + 1, size := ⟨0, 0⟩ })
    let s1 := alloc.1
    let intermediate := alloc.2
    match Texture.load fs lt.definition.Path intermediate with
    | (_, .error e) => (s1, .error ("hot-reload texture " ++ key ++ ": " ++ e))
    | (loaded, .ok _) =>
      -- swap live and intermediate, bump the generation, write back
      let lt' : LoadedTexture :=
        { lt with
          texture := loaded
          intermediateTexture := some lt.texture
          id := { lt.id with generation := lt.id.generation + 1 } }
      ({ s1 with textures := insertA key lt' s.textures },
       .ok loaded.size)

/-- Go `TextureStore.Reload` (public wrapper, lock elided). -/
def TextureStore.Reload (fs : FileSystem) (key : TextureKey) (s : TextureStore) :
    TextureStore × Except String Vec2 :=
  s.reloadTexture fs key

/-- Go `TextureStore.Load`.  When the key is already present the Go code sets
`loadedTexture.definition = def` on a *local copy* of the map entry and then
calls `reloadTexture`, which re-reads the map: the updated definition is
discarded and the old definition is rebuilt.  The embedding mirrors that by
calling `reloadTexture` directly. -/
def TextureStore.Load (fs : FileSystem) (key : TextureKey)
    (defn : TextureDefinition) (s : TextureStore) :
    TextureStore × Except String Vec2 :=
  if (lookupA key s.textures).isSome then
    s.reloadTexture fs key
  else
    let id : VersionedID := { id := s.texIDSeq + 1, generation := 0 }
    let s1 := { s with texIDSeq := s.texIDSeq + 1 }
    let tex : Texture := { tex := s1.glTexSeq + 1, size := ⟨0, 0⟩ }
    let s2 := { s1 with glTexSeq := s1.glTexSeq + 1 }
    match Texture.load fs defn.Path tex with
    | (_, .error e) => (s2, .error e) -- tex.Destroy(); nothing registered
    | (loaded, .ok _) =>
      ({ s2 with
          textures := insertA key
            { id := id, texture := loaded, intermediateTexture := none,
              definition := defn } s2.textures
          watches := (defn.Path, key) :: s2.watches },
       .ok loaded.size)

/-- Go `TextureStore.unload`: frees the GPU objects, removes the watch and the
map entry; warns (no-op on the map) for unknown keys. -/
def TextureStore.unload (key : TextureKey) (s : TextureStore) : TextureStore :=
  match lookupA key s.textures with
  | none => s
  | some lt =>
    { s with
        textures := eraseA key s.textures
        watches := s.watches.filter
          (fun pk => ¬(pk.1 = lt.definition.Path ∧ pk.2 = key)) }

/-- Go `TextureStore.Unload` (public wrapper, lock elided). -/
def TextureStore.Unload (key : TextureKey) (s : TextureStore) : TextureStore :=
  s.unload key

/-- Go `TextureStore.resolve`: returns the zero `texID` and `nil` for an
unknown key, otherwise the entry's id and live texture. -/
def TextureStore.resolve (key : TextureKey) (s : TextureStore) :
    VersionedID × Option Texture :=
  match lookupA key s.textures with
  | none => (⟨0, 0⟩, none)
  | some lt => (lt.id, some lt.texture)

/-! ## Texture store operation traces (for the per-key invariants) -/

/-- One public store operation, carrying the filesystem contents it runs
against. -/
inductive TexOp where
  | load (fs : FileSystem) (key : TextureKey) (defn : TextureDefinition)
  | reload (fs : FileSystem) (key : TextureKey)
  | unload (key : TextureKey)

/-- Effect of one operation on the store state. -/
def TexOp.step : TexOp → TextureStore → TextureStore
  | .load fs key defn, s => (s.Load fs key defn).1
  | .reload fs key, s => (s.Reload fs key).1
  | .unload key, s => s.Unload key

/-- Run a sequence of store operations. -/
def runTexOps (ops : List TexOp) (s : TextureStore) : TextureStore :=
  ops.foldl (fun st op => op.step st) s

/-- Store invariant: every registered id was drawn from the id sequence. -/
def TextureStore.IdsBounded (s : TextureStore) : Prop :=
  ∀ k lt, lookupA k s.textures = some lt → lt.id.id ≤ s.texIDSeq

/-! ## GL call log

GPU calls are recorded as events.  Uniform-upload events carry the uniform
location and the value arity (the float/int payloads themselves are never
inspected by the code under verification).  `assertFailed` records a fired
`assert.*` (logged error), the engine's failure reporting. -/

inductive GlCall where
  | uniform1i (loc : Int) (v : Int)
  | uniformFv (loc : Int) (n : Nat)
  | uniformIv (loc : Int) (n : Nat)
  | uniformMatrixFv (loc : Int) (n : Nat)
  | useProgram (prog : Nat)
  | activeTexture (unit : Nat)
  | bindTexture (tex : Nat)
  | bindBuffer (buf : Nat)
  | bufferData (target : Nat) (len : Nat)
  | enableVertexAttrib (loc : Nat)
  | disableVertexAttrib (loc : Nat)
  | vertexAttribPointer (loc : Nat) (components : Nat) (stride : Nat) (offset : Nat)
  | drawElements (count : Nat)
  | drawArrays (first : Nat) (count : Nat)
  | assertFailed
deriving DecidableEq

/-! ## SamplerManager -/

/-- Go `texBinding`: which build of which texture occupies a sampler slot. -/
structure TexBinding where
  texture : VersionedID
  sampler : Nat
deriving DecidableEq

/-- Go's zero value for `texBinding` (what `binding, ok := m[k]` yields when
the key is absent). -/
def zeroTexBinding : TexBinding := { texture := ⟨0, 0⟩, sampler := 0 }

/-- Go `samplerManager`: bounded texture-unit allocator. -/
structure SamplerManager where
  maxSampler : Nat
  activeBindings : List Bool
  texBinding : List (TextureKey × TexBinding)
deriving DecidableEq

/-- Go `newSamplerManager` for a hardware unit count `n`
(`gl.GetInteger(gl.MAX_TEXTURE_IMAGE_UNITS)`). -/
def SamplerManager.initial (n : Nat) : SamplerManager :=
  { maxSampler := n, activeBindings := List.replicate n false, texBinding := [] }

/-- Index of the first `false` entry of a boolean list (the scan loop of
`unusedSampler`). -/
def firstFalse : List Bool → Option Nat
  | [] => none
  | act :: rest => if act then (firstFalse rest).map (· + 1) else some 0

/-- Function `samplerManager.unusedSampler`: index of the first free slot;
`none` models the `assert.Fail` + `-1` path when all slots are in use. -/
def SamplerManager.unusedSampler (t : SamplerManager) : Option Nat :=
  firstFalse t.activeBindings

/-- Go `samplerManager.bind`.  Two behaviours of the Go code are mirrored
exactly: in the fresh-allocation branch the *local* variable `binding`
still holds the zero value when `gl.Uniform1i(samplerLoc, binding.sampler)`
runs, and in the reloaded-texture branch `binding.texture = texID` mutates
only the local copy, never the map. -/
def SamplerManager.bind (store : TextureStore) (samplerLoc : Int)
    (textureKey : TextureKey) (t : SamplerManager) :
    SamplerManager × List GlCall :=
  match store.resolve textureKey with
  | (_, none) => (t, [.uniform1i samplerLoc 0, .assertFailed])
  | (texID, some texture) =>
    match lookupA textureKey t.texBinding with
    | none =>
      match t.unusedSampler with
      | none => (t, [.assertFailed, .uniform1i samplerLoc 0])
      | some sampler =>
        ({ t with
            activeBindings := t.activeBindings.set sampler true
            texBinding := insertA textureKey
              { texture := texID, sampler := sampler } t.texBinding },
         [.activeTexture sampler, .bindTexture texture.tex,
          .uniform1i samplerLoc zeroTexBinding.sampler])
    | some binding =>
      if binding.texture ≠ texID then
        -- hot-reloaded texture: rebind the same slot (map left untouched)
        (t, [.activeTexture binding.sampler, .bindTexture texture.tex,
             .uniform1i samplerLoc binding.sampler])
      else
        (t, [.uniform1i samplerLoc binding.sampler])

/-- Go `samplerManager.unbind`: releases the slot; asserts if the key held
none. -/
def SamplerManager.unbind (textureKey : TextureKey) (t : SamplerManager) :
    SamplerManager × List GlCall :=
  match lookupA textureKey t.texBinding with
  | none => (t, [.assertFailed])
  | some binding =>
    ({ t with
        texBinding := eraseA textureKey t.texBinding
        activeBindings := t.activeBindings.set binding.sampler false },
     [.activeTexture binding.sampler, .bindTexture 0])

/-- One sampler-manager operation (the texture store backing a `bind` is
carried by the operation). -/
inductive SmOp where
  | bindOp (store : TextureStore) (loc : Int) (key : TextureKey)
  | unbindOp (key : TextureKey)

/-- Effect of one sampler-manager operation. -/
def SmOp.step : SmOp → SamplerManager → SamplerManager
  | .bindOp store loc key, t => (t.bind store loc key).1
  | .unbindOp key, t => (t.unbind key).1

/-- Run a sequence of sampler-manager operations. -/
def runSmOps (ops : List SmOp) (t : SamplerManager) : SamplerManager :=
  ops.foldl (fun st op => op.step st) t

/-! ## shaderProgram and ShaderStore (resolution side) -/

/-- Go `gl.FLOAT`. -/
def glFLOAT : Nat := 0x1406
/-- Go `gl.FLOAT_VEC2`. -/
def glFLOATVec2 : Nat := 0x8B50
/-- Go `gl.FLOAT_VEC3`. -/
def glFLOATVec3 : Nat := 0x8B51
/-- Go `gl.FLOAT_VEC4`. -/
def glFLOATVec4 : Nat := 0x8B52

/-- Go `vaTypeProperties`: component count and component type of a vertex
attribute type. -/
structure VaTypeProperties where
  components : Nat
  compType : Nat
deriving DecidableEq

/-- Go `vaTypePropertyMapping`: the map from attribute type enum to its
properties (`gl.FLOAT` .. `gl.FLOAT_VEC4`); indexing it with any other enum
(including the zero type of a missing attribute) yields the Go zero value
`{0, 0}`. -/
def vaTypePropertyMapping (typ : Nat) : VaTypeProperties :=
  if typ = glFLOAT then ⟨1, glFLOAT⟩
  else if typ = glFLOATVec2 then ⟨2, glFLOAT⟩
  else if typ = glFLOATVec3 then ⟨3, glFLOAT⟩
  else if typ = glFLOATVec4 then ⟨4, glFLOAT⟩
  else ⟨0, 0⟩

/-- Go `shaderProgram`: the compiled GPU program with its introspection
maps, filled by `fetchVertexAttributes` / `fetchUniforms` after a
successful link.  `attributeLocations` and `attributeTypes` are parallel
maps keyed by attribute name; `uniformLocations` holds the general uniforms
while the `modelTransform` / `vpMatrix` uniforms are routed to the two
dedicated fields (`.Value >= 0`, i.e. nonnegative, meaning present). -/
structure ShaderProgram where
  program : Nat
  attributeLocations : List (String × Nat)
  attributeTypes : List (String × Nat)
  uniformLocations : List (String × Int)
  modelTransformLocation : Int
  vpMatrixLocation : Int
deriving DecidableEq

/-- Go `shaderProgram.getUniformLocation`: map lookup returning the
location and the `ok` flag (the zero `gl.Uniform` when absent). -/
def ShaderProgram.getUniformLocation (uniformName : String)
    (p : ShaderProgram) : Int × Bool :=
  match lookupA uniformName p.uniformLocations with
  | none => (0, false)
  | some loc => (loc, true)

/-- Go `shaderProgram.getAttribLocation`: plain map indexing of both
parallel maps — a missing attribute yields the zero `gl.Attrib` and the
zero type enum. -/
def ShaderProgram.getAttribLocation (attributeName : String)
    (p : ShaderProgram) : Nat × Nat :=
  ((lookupA attributeName p.attributeLocations).getD 0,
   (lookupA attributeName p.attributeTypes).getD 0)

/-- Go `loadedShader` store entry (only the fields read by `resolve`). -/
structure LoadedShader where
  id : VersionedID
  program : Option ShaderProgram
deriving DecidableEq

/-- Go `ShaderStore` (resolution state). -/
structure ShaderStore where
  shaderPrograms : List (ShaderProgKey × LoadedShader)
deriving DecidableEq

/-- Go `ShaderStore.resolve`: a missing key yields the Go zero value
(`nil` program, zero id). -/
def ShaderStore.resolve (key : ShaderProgKey) (s : ShaderStore) :
    Option ShaderProgram × VersionedID :=
  match lookupA key s.shaderPrograms with
  | none => (none, ⟨0, 0⟩)
  | some ls => (ls.program, ls.id)

/-! ## Material -/

/-- Go `Material`: shader key, texture bindings and uniform values.  `matId`
models the Go pointer identity that `RenderState.applyMaterial` compares
with `!=` (two materials with equal contents are still distinct objects). -/
structure Material where
  matId : Nat
  sProgKey : ShaderProgKey
  textures : List (String × TextureKey)
  uniformf : List (String × List Float32)
  uniformMat : List (String × List Float32)
  uniformi : List (String × List Int)
deriving DecidableEq

/-- One step of `Material.apply`'s texture loop: look the sampler uniform up
on the shader and bind the texture key through the sampler manager. -/
def applyTextureBinding (sProg : ShaderProgram) (store : TextureStore)
    (acc : SamplerManager × List GlCall) (e : String × TextureKey) :
    SamplerManager × List GlCall :=
  let lo := sProg.getUniformLocation e.1
  if lo.2 = false then (acc.1, acc.2 ++ [.assertFailed])
  else
    let r := acc.1.bind store lo.1 e.2
    (r.1, acc.2 ++ r.2)

/-- One step of `Material.apply`'s float-uniform loop (`gl.Uniform{1..4}fv`). -/
def applyUniformF (sProg : ShaderProgram) (e : String × List Float32) : List GlCall :=
  let lo := sProg.getUniformLocation e.1
  if lo.2 = false then [.assertFailed]
  else
    if e.2.length = 1 ∨ e.2.length = 2 ∨ e.2.length = 3 ∨ e.2.length = 4 then
      [.uniformFv lo.1 e.2.length]
    else
      [.assertFailed]

/-- One step of `Material.apply`'s matrix-uniform loop
(`gl.UniformMatrix{2,3,4}fv`). -/
def applyUniformMat (sProg : ShaderProgram) (e : String × List Float32) : List GlCall :=
  let lo := sProg.getUniformLocation e.1
  if lo.2 = false then [.assertFailed]
  else
    if e.2.length = 4 ∨ e.2.length = 9 ∨ e.2.length = 16 then
      [.uniformMatrixFv lo.1 e.2.length]
    else
      [.assertFailed]

/-- One step of `Material.apply`'s int-uniform loop (`gl.Uniform{1..4}iv`). -/
def applyUniformI (sProg : ShaderProgram) (e : String × List Int) : List GlCall :=
  let lo := sProg.getUniformLocation e.1
  if lo.2 = false then [.assertFailed]
  else
    if e.2.length = 1 ∨ e.2.length = 2 ∨ e.2.length = 3 ∨ e.2.length = 4 then
      [.uniformIv lo.1 e.2.length]
    else
      [.assertFailed]

/-- Go `Material.apply`: pushes every texture binding (through
`samplerManager.bind`) and every float/matrix/int uniform value declared on
the material; uniforms the shader does not expose are skipped with a logged
assert. -/
def Material.apply (m : Material) (sProg : ShaderProgram)
    (store : TextureStore) (sm : SamplerManager) :
    SamplerManager × List GlCall :=
  let texPart := m.textures.foldl (applyTextureBinding sProg store) (sm, [])
  (texPart.1,
   texPart.2
     ++ m.uniformf.foldl (fun acc e => acc ++ applyUniformF sProg e) []
     ++ m.uniformMat.foldl (fun acc e => acc ++ applyUniformMat sProg e) []
     ++ m.uniformi.foldl (fun acc e => acc ++ applyUniformI sProg e) [])

/-! ## RenderState -/

/-- Go `RenderState`: per-frame state-diffing dispatcher.  The Go struct holds
pointers to the camera, the shader store and the sampler manager (which in
turn points at the texture store); the embedding stores those collaborators
as fields too. -/
structure RenderState where
  shaders : ShaderStore
  textures : TextureStore
  samplerManager : SamplerManager
  material : Option Nat   -- identity of the currently applied material
  sProgID : VersionedID   -- currently used shader program
  totalDrawCalls : Nat
  totalPrimitives : Nat
deriving DecidableEq

/-- Go `newRenderState` (fresh per frame; zero-valued diff state and counters). -/
def RenderState.initial (shaders : ShaderStore) (textures : TextureStore)
    (sm : SamplerManager) : RenderState :=
  { shaders := shaders, textures := textures, samplerManager := sm,
    material := none, sProgID := ⟨0, 0⟩,
    totalDrawCalls := 0, totalPrimitives := 0 }

/-- Go `RenderState.applyShader`: resolves the key; if the resolved id differs
from the last-used one, activates the program and (when exposed) pushes the
view-projection matrix. -/
def RenderState.applyShader (sProgKey : ShaderProgKey) (r : RenderState) :
    Option ShaderProgram × RenderState × List GlCall :=
  match r.shaders.resolve sProgKey with
  | (none, _) => (none, r, [.assertFailed])
  | (some sProg, sProgID) =>
    if r.sProgID ≠ sProgID then
      (some sProg, { r with sProgID := sProgID },
       [.useProgram sProg.program]
         ++ (if sProg.vpMatrixLocation ≥ 0 then
               [.uniformMatrixFv sProg.vpMatrixLocation 16]
             else []))
    else
      (some sProg, r, [])

/-- Go `RenderState.applyMaterial`: applies the shader, then (only when the
material object differs from the last applied one) pushes the material's
uniforms and texture bindings, then pushes the model transform when the
shader exposes it. -/
def RenderState.applyMaterial (material : Material) (r : RenderState) :
    Option ShaderProgram × RenderState × List GlCall :=
  match r.applyShader material.sProgKey with
  | (none, r1, log) => (none, r1, log)
  | (some sProg, r1, log) =>
    let matPart : RenderState × List GlCall :=
      if r1.material ≠ some material.matId then
        let applied := material.apply sProg r1.textures r1.samplerManager
        ({ r1 with samplerManager := applied.1, material := some material.matId },
         applied.2)
      else
        (r1, [])
    let transLog : List GlCall :=
      if sProg.modelTransformLocation ≥ 0 then
        [.uniformMatrixFv sProg.modelTransformLocation 16]
      else []
    (some sProg, matPart.1, log ++ matPart.2 ++ transLog)

/-! ## Mesh -/

/-- Go `PrimitiveType` (`gl.Enum`); `other` covers enum values outside the
seven known primitive kinds. -/
inductive PrimitiveType where
  | points
  | lineStrip
  | lineLoop
  | lines
  | triangleStrip
  | triangleFan
  | triangles
  | other (e : Nat)
deriving DecidableEq

/-- Go `BufferLayout`. -/
inductive BufferLayout where
  | interleavedBuffer
  | compactBuffer
deriving DecidableEq

/-- Go `Mesh` (geometry buffers live on the GPU; `ibo = 0` means no index
buffer, mirroring `m.ibo.Value != 0`). -/
structure Mesh where
  material : Material
  vbo : Nat
  ibo : Nat
  primitiveType : PrimitiveType
  bufferLayout : BufferLayout
  vboSize : Nat
  vertexAttributes : List String
  vtxShaderProgID : VersionedID
  vertexSize : Nat
  vertexCount : Nat
  indexCount : Nat
  primitiveCount : Nat
deriving DecidableEq

/-- Go `Mesh.determinePrimitiveCount`: primitives per index count and primitive
type; the `Bool` records whether the arity assertion held. -/
def Mesh.determinePrimitiveCount (indexCount : Nat) (pt : PrimitiveType) :
    Nat × Bool :=
  match pt with
  | .points => (indexCount, true)
  | .lineStrip => (indexCount - 1, decide (indexCount ≥ 1))
  | .lineLoop => (indexCount, true)
  | .lines => (indexCount / 2, decide (indexCount % 2 = 0))
  | .triangleStrip => (indexCount - 2, decide (indexCount ≥ 2))
  | .triangleFan => (indexCount - 2, decide (indexCount ≥ 2))
  | .triangles => (indexCount / 3, decide (indexCount % 3 = 0))
  | .other _ => (0, false)

/-- Go `Mesh.calcVertexData`: recomputes per-vertex size and vertex count from
the shader's attribute types.  Attributes the shader does not declare
contribute zero components with a logged assert (Go indexes
`vaTypePropertyMapping` with the zero type).  When `vertexSize` ends up `0`
with a non-empty buffer the Go code divides by zero after a logged assert;
the embedding uses Lean's `0`-valued division there, a path no claim
exercises. -/
def Mesh.calcVertexData (m : Mesh) : ShaderStore → Mesh × List GlCall :=
  fun shaders =>
    match shaders.resolve m.material.sProgKey with
    | (none, _) => (m, [.assertFailed])
    | (some sProg, id) =>
      if id = m.vtxShaderProgID then (m, [])
      else
        let m1 := { m with vtxShaderProgID := id }
        let comps := m.vertexAttributes.foldl
          (fun acc vaName =>
            let at2 := sProg.getAttribLocation vaName
            (acc.1 + (vaTypePropertyMapping at2.2).components,
             acc.2 ++ (if at2.2 = 0 then [GlCall.assertFailed] else [])))
          ((0 : Nat), ([] : List GlCall))
        let vertexSize := comps.1 * 4
        let vertexCount := if m.vboSize = 0 then 0 else m.vboSize / vertexSize
        ({ m1 with vertexSize := vertexSize, vertexCount := vertexCount },
         comps.2
           ++ (if m.vboSize ≠ 0 ∧ vertexSize = 0 then [GlCall.assertFailed] else [])
           ++ (if vertexCount * vertexSize ≠ m.vboSize then [GlCall.assertFailed] else []))

/-- Go `mesh.configureInterleavedVertexAttributes`: one shared stride, offsets
accumulated across the attributes. -/
def Mesh.configureInterleavedVertexAttributes (m : Mesh) (sProg : ShaderProgram) :
    List GlCall :=
  (m.vertexAttributes.foldl
    (fun acc vaName =>
      let at2 := sProg.getAttribLocation vaName
      if at2.2 = 0 then (acc.1, acc.2 ++ [GlCall.assertFailed])
      else
        let typProps := vaTypePropertyMapping at2.2
        (acc.1 + typProps.components * 4,
         acc.2 ++ [GlCall.vertexAttribPointer at2.1 typProps.components
                     m.vertexSize acc.1]))
    ((0 : Nat), ([] : List GlCall))).2

/-- Go `mesh.configureCompactVertexAttributes`: per-attribute stride, offsets
addressed by `vertexCount × component-offset`. -/
def Mesh.configureCompactVertexAttributes (m : Mesh) (sProg : ShaderProgram) :
    List GlCall :=
  (m.vertexAttributes.foldl
    (fun acc vaName =>
      let at2 := sProg.getAttribLocation vaName
      if at2.2 = 0 then (acc.1, acc.2 ++ [GlCall.assertFailed])
      else
        let typProps := vaTypePropertyMapping at2.2
        (acc.1 + typProps.components,
         acc.2 ++ [GlCall.vertexAttribPointer at2.1 typProps.components
                     (typProps.components * 4) (m.vertexCount * acc.1 * 4)]))
    ((0 : Nat), ([] : List GlCall))).2

/-- Go `shaderProgram.configureVertexAttributes`: enables (or symmetrically
disables) the vertex-attribute array of every listed attribute.  A missing
attribute only logs an internal assert (`iAssertTrue` does not skip): the
Enable/Disable call is still issued, with the zero-valued location. -/
def ShaderProgram.configureVertexAttributes (vertexAttributes : List String)
    (enable : Bool) (p : ShaderProgram) : List GlCall :=
  vertexAttributes.foldl
    (fun acc name =>
      let lo := lookupA name p.attributeLocations
      acc ++ (if lo.isSome then [] else [GlCall.assertFailed])
        ++ [if enable then GlCall.enableVertexAttrib (lo.getD 0)
            else GlCall.disableVertexAttrib (lo.getD 0)])
    []

/-- Go `Mesh.Draw`: no-op when the index count is zero; otherwise applies the
material (skipping the draw when the shader is unresolved), refreshes the
vertex layout if the shader changed, configures and issues the draw call,
and bumps the render-state counters. -/
def Mesh.Draw (m : Mesh) (r : RenderState) : Mesh × RenderState × List GlCall :=
  if m.indexCount = 0 then (m, r, [])
  else
    match r.applyMaterial m.material with
    | (none, r1, log) => (m, r1, log)
    | (some sProg, r1, log) =>
      let mc :=
        if r1.sProgID ≠ m.vtxShaderProgID then m.calcVertexData r1.shaders
        else (m, [])
      let m1 := mc.1
      let cfg :=
        if m1.bufferLayout = .interleavedBuffer then
          m1.configureInterleavedVertexAttributes sProg
        else
          m1.configureCompactVertexAttributes sProg
      let drawCall : GlCall :=
        if m1.ibo ≠ 0 then .drawElements m1.indexCount
        else .drawArrays 0 m1.indexCount
      (m1,
       { r1 with
          totalDrawCalls := r1.totalDrawCalls + 1
          totalPrimitives := r1.totalPrimitives + m1.primitiveCount },
       log ++ mc.2
         ++ ShaderProgram.configureVertexAttributes m1.vertexAttributes true sProg
         ++ [.bindBuffer m1.vbo] ++ cfg ++ [drawCall]
         ++ ShaderProgram.configureVertexAttributes m1.vertexAttributes false sProg)

/-! ## IEEE-754 binary32 arithmetic (exact model)

`AssertValidGeometry` tests divisibility with `float32` arithmetic:
`float32(len(vertices))/float32(vertexCount) == float32(vertexSize)`.
The nonnegative finite `float32` values reachable there (naturals and their
quotients, far inside binary32's normal range: Go slice lengths keep every
magnitude below `2^63`, so no overflow, underflow, infinities or NaNs
arise) are modelled exactly as a 24-bit significand with a power-of-two
scale, rounded to nearest, ties to even. -/

/-- Floor of `log₂ n` by fuelled halving (fuel-structural so that kernel
reduction terminates quickly on large literals). -/
def log2Fuel : Nat → Nat → Nat
  | 0, _ => 0
  | f + 1, n => if n ≤ 1 then 0 else log2Fuel f (n / 2) + 1

/-- Round the fraction `p / q` (with `q ≠ 0`) to the nearest integer, ties
to even. -/
def roundHalfEvenDiv (p q : Nat) : Nat :=
  let d := p / q
  let r := p % q
  if 2 * r < q then d
  else if q < 2 * r then d + 1
  else if d % 2 = 0 then d else d + 1

/-- A nonnegative binary32 value: `m * 2^e`, with `m = 0` (canonical zero,
`e = 0`) or `2^23 ≤ m < 2^24`.  The normalized representation makes
structural equality coincide with value equality. -/
structure F32 where
  m : Nat
  e : Int
deriving DecidableEq

/-- Build a normalized `F32` from a rounded significand candidate (handles
the carry when rounding overflows to `2^24`). -/
def F32.norm (m : Nat) (e : Int) : F32 :=
  if m = 2 ^ 24 then ⟨2 ^ 23, e + 1⟩ else ⟨m, e⟩

/-- Conversion `float32(n)` of a natural number: exact below `2^24`, rounded
to 24 significant bits (ties to even) above. -/
def f32ofNat (n : Nat) : F32 :=
  if n = 0 then ⟨0, 0⟩
  else
    let l := log2Fuel n n   -- ⌊log₂ n⌋
    if l ≤ 23 then
      ⟨n * 2 ^ (23 - l), (l : Int) - 23⟩
    else
      F32.norm (roundHalfEvenDiv n (2 ^ (l - 23))) ((l : Int) - 23)

/-- Division of two nonnegative binary32 values, rounded to nearest (ties
to even).  A zero dividend yields zero; the divisor is nonzero on every
reachable path. -/
def f32div (a b : F32) : F32 :=
  if a.m = 0 ∨ b.m = 0 then ⟨0, 0⟩
  else if b.m ≤ a.m then
    -- quotient in [1, 2): 24-bit significand of (a.m * 2^23) / b.m
    F32.norm (roundHalfEvenDiv (a.m * 2 ^ 23) b.m) (a.e - b.e - 23)
  else
    -- quotient in (1/2, 1): 24-bit significand of (a.m * 2^24) / b.m
    F32.norm (roundHalfEvenDiv (a.m * 2 ^ 24) b.m) (a.e - b.e - 24)

/-! ## Geometry validation -/

/-- Go `AssertValidGeometry`: `true` iff no assertion fires (each failing
`assert.*` logs a validation failure; execution always continues).
The divisibility test mirrors the Go source's `float32` comparison
`float32(len(vertices))/float32(vertexCount) == float32(vertexSize)`. -/
def assertValidGeometry (shaders : ShaderStore) (sProgKey : ShaderProgKey)
    (vertexCount : Nat) (vertices : List Float32) (indices : List Nat)
    (primitiveType : PrimitiveType) (vertexAttributes : List String) : Bool :=
  let indexCount := indices.length
  let vertexSize := if 0 < vertexCount then vertices.length / vertexCount else 0
  -- vertex data must be divisible by vertex count
  let divisibilityOk : Bool :=
    if 0 < vertexCount then
      f32div (f32ofNat vertices.length) (f32ofNat vertexCount)
        = f32ofNat vertexSize
    else
      vertices.length = 0
  -- there must be attributes
  let attrsOk : Bool := 0 < vertexAttributes.length
  -- vertex size must be big enough for all the attributes
  let sizeOk : Bool := vertexAttributes.length ≤ vertexSize
  let indexOk : Bool :=
    if 0 < indexCount then
      let maxIdx : Int := indices.foldl (fun acc i => max acc (i : Int)) (-1)
      let minIdx : Int := indices.foldl (fun acc i => min acc (i : Int)) (vertexCount : Int)
      -- vertices must be indexable, indices in bounds, orphan detection
      (vertexCount ≤ 0xFFFF : Bool)
        && indices.all (fun i => i < vertexCount)
        && ((vertexCount : Int) - 1 - maxIdx ≤ 0 : Bool)
        && (minIdx ≤ 0 : Bool)
        && (vertexCount ≤ indexCount : Bool)
    else true
  -- index count must be divisible by number-of-indices-per-primitive
  let arityOk : Bool :=
    match primitiveType with
    | .points => true
    | .lineStrip => 1 ≤ indexCount
    | .lineLoop => true
    | .lines => indexCount % 2 = 0
    | .triangleStrip => 2 ≤ indexCount
    | .triangleFan => 2 ≤ indexCount
    | .triangles => indexCount % 3 = 0
    | .other _ => false
  -- validate against the shader program (skipped for an empty key)
  let shaderOk : Bool :=
    if sProgKey = "" then true
    else
      match shaders.resolve sProgKey with
      | (none, _) => false
      | (some sProg, _) =>
        let expectedVertexSize := vertexAttributes.foldl
          (fun acc attr =>
            acc + (vaTypePropertyMapping
              ((lookupA attr sProg.attributeTypes).getD 0)).components) 0
        (vertexAttributes.all
            (fun attr => (lookupA attr sProg.attributeTypes).isSome))
          && (sProg.attributeTypes.length ≤ vertexAttributes.length : Bool)
          && (vertexSize = expectedVertexSize : Bool)
  divisibilityOk && attrsOk && sizeOk && indexOk && arityOk && shaderOk

/-! ## Geometry (CPU-side, mergeable) -/

/-- Go `Geometry`: CPU-side vertex/index data. -/
structure Geometry where
  vertexCount : Nat
  vertices : List Float32
  indices : List Nat   -- uint16 values
  primitiveType : PrimitiveType
  vertexAttributes : List String
  bufferLayout : BufferLayout
deriving DecidableEq

/-- Go `Geometry.Set`: replaces the data after validating it (the validation
result is only logged; the fields are stored regardless). -/
def Geometry.Set (shaders : ShaderStore) (vertexCount : Nat) (vertices : List Float32)
    (indices : List Nat) (primitiveType : PrimitiveType)
    (vertexAttributes : List String) (bufferLayout : BufferLayout)
    (_g : Geometry) : Geometry × Bool :=
  ({ vertexCount := vertexCount, vertices := vertices, indices := indices,
     primitiveType := primitiveType, vertexAttributes := vertexAttributes,
     bufferLayout := bufferLayout },
   assertValidGeometry shaders "" vertexCount vertices indices primitiveType
     vertexAttributes)

/-- Go `Geometry.Append`: merges new geometry at the end of the current one.
Appended indices are offset by `uint16(g.vertexCount)` with `uint16`
wrap-around.  All `assert.*` compatibility checks only log (the returned
`Bool`); the merge itself happens unconditionally, as in the source. -/
def Geometry.Append (shaders : ShaderStore) (vertexCount : Nat)
    (vertices : List Float32) (indices : List Nat) (primitiveType : PrimitiveType)
    (vertexAttributes : List String) (bufferLayout : BufferLayout)
    (g : Geometry) : Geometry × Bool :=
  if g.vertexCount = 0 then
    g.Set shaders vertexCount vertices indices primitiveType vertexAttributes
      bufferLayout
  else
    let ok := assertValidGeometry shaders "" vertexCount vertices indices
        primitiveType vertexAttributes
      && (g.primitiveType = primitiveType : Bool)
      && (g.vertexAttributes = vertexAttributes : Bool)
      && (g.vertexCount + vertexCount ≤ 0xFFFF : Bool)
      && (g.bufferLayout = bufferLayout : Bool)
      && (bufferLayout = .interleavedBuffer : Bool)
      && (primitiveType = .points ∨ primitiveType = .lines
            ∨ primitiveType = .triangles : Bool)
    ({ g with
        vertices := g.vertices ++ vertices
        indices := g.indices
          ++ indices.map (fun i => (i + g.vertexCount % 65536) % 65536)
        vertexCount := g.vertexCount + vertexCount },
     ok)

/-- Go `Geometry.AppendGeometry`. -/
def Geometry.AppendGeometry (shaders : ShaderStore) (other : Geometry)
    (g : Geometry) : Geometry × Bool :=
  g.Append shaders other.vertexCount other.vertices other.indices
    other.primitiveType other.vertexAttributes other.bufferLayout

/-! ## Invariants and auxiliary predicates -/

/-- Predicate: the event is a GPU draw submission
(`gl.DrawElements` / `gl.DrawArrays`). -/
def GlCall.isDraw : GlCall → Bool
  | .drawElements _ => true
  | .drawArrays _ _ => true
  | _ => false

/-- Well-formedness of a texture store: the map has no duplicate keys and
every registered id was drawn from the id sequence. -/
def TextureStore.WF (s : TextureStore) : Prop :=
  (s.textures.map Prod.fst).Nodup ∧ s.IdsBounded

/-- Well-formedness of the sampler manager's slot table: the slot array has
the configured size, keys are unique, every binding points at an active
in-range slot, slots are not shared, and the number of active slots equals
the number of bound keys. -/
def SamplerManager.WF (t : SamplerManager) : Prop :=
  t.activeBindings.length = t.maxSampler ∧
  (t.texBinding.map Prod.fst).Nodup ∧
  (∀ k b, lookupA k t.texBinding = some b →
     t.activeBindings.get? b.sampler = some true) ∧
  (∀ k1 k2 b1 b2, k1 ≠ k2 → lookupA k1 t.texBinding = some b1 →
     lookupA k2 t.texBinding = some b2 → b1.sampler ≠ b2.sampler) ∧
  t.activeBindings.count true = t.texBinding.length

/-! ## Concrete fixtures (witness inputs) -/

/-- A filesystem with two decodable images: `a.png` (10×10) and
`b.png` (20×20). -/
def fsDemo : FileSystem := fun p =>
  if p = "a.png" then some ⟨10, 10⟩
  else if p = "b.png" then some ⟨20, 20⟩
  else none

/-- A filesystem on which every open/decode fails. -/
def fsBroken : FileSystem := fun _ => none

/-- Definition pointing at `a.png`. -/
def defnA : TextureDefinition := ⟨"a.png", ⟨0, 0, 0, 0⟩⟩

/-- Definition pointing at `b.png`. -/
def defnB : TextureDefinition := ⟨"b.png", ⟨0, 0, 0, 0⟩⟩

/-- A store with the single key `k` loaded from `a.png`. -/
def storeK : TextureStore := (TextureStore.initial.Load fsDemo "k" defnA).1

/-- A store with keys `A` (from `a.png`) and `B` (from `b.png`) loaded. -/
def storeAB : TextureStore :=
  ((TextureStore.initial.Load fsDemo "A" defnA).1.Load fsDemo "B" defnB).1

/-- A demo shader program: one general uniform `uTint`, one sampler uniform
`uSampler`, a single `vec2` attribute `aPos` at location 0, a model
transform uniform but no view-projection uniform. -/
def sProgDemo : ShaderProgram :=
  { program := 11
    attributeLocations := [("aPos", 0)]
    attributeTypes := [("aPos", glFLOATVec2)]
    uniformLocations := [("uTint", 3), ("uSampler", 4)]
    modelTransformLocation := 7
    vpMatrixLocation := -1 }

/-- A shader store exposing `sProgDemo` under key `s`. -/
def shadersDemo : ShaderStore :=
  ⟨[("s", { id := ⟨1, 0⟩, program := some sProgDemo })]⟩

/-- A material on shader `s` with one float uniform. -/
def matDemo : Material :=
  { matId := 100, sProgKey := "s", textures := []
    uniformf := [("uTint", [1, 0, 0])], uniformMat := [], uniformi := [] }

/-- A second, distinct material object on the same shader. -/
def matDemo2 : Material :=
  { matDemo with matId := 101 }

/-- A fresh render state over the demo stores. -/
def rsDemo : RenderState :=
  RenderState.initial shadersDemo storeAB (SamplerManager.initial 4)

/-- A triangle mesh over the demo material: three indexed vertices. -/
def meshDemo : Mesh :=
  { material := matDemo, vbo := 21, ibo := 22
    primitiveType := .triangles, bufferLayout := .interleavedBuffer
    vboSize := 24, vertexAttributes := ["aPos"]
    vtxShaderProgID := ⟨1, 0⟩, vertexSize := 8, vertexCount := 3
    indexCount := 3, primitiveCount := 1 }

/-- A sampler manager with 2 hardware units, both occupied (`A` in slot 0,
`B` in slot 1). -/
def smFull : SamplerManager :=
  runSmOps [SmOp.bindOp storeAB 7 "A", SmOp.bindOp storeAB 8 "B"]
    (SamplerManager.initial 2)

/-! # Theorems

First a small lemma kit about the association lists that embed Go maps,
then the claims. -/

theorem lookupA_insertA_self {κ ν : Type} [DecidableEq κ] (k : κ) (v : ν)
    (l : List (κ × ν)) : lookupA k (insertA k v l) = some v := by
  induction l with
  | nil => simp [insertA, lookupA]
  | cons p tl ih =>
    obtain ⟨k', v'⟩ := p
    by_cases h : k = k'
    · simp [insertA, lookupA, h]
    · simp [insertA, lookupA, h, ih]

theorem lookupA_insertA_ne {κ ν : Type} [DecidableEq κ] {k k2 : κ} (v : ν)
    (l : List (κ × ν)) (h : k ≠ k2) :
    lookupA k (insertA k2 v l) = lookupA k l := by
  induction l with
  | nil => simp [insertA, lookupA, h]
  | cons p tl ih =>
    obtain ⟨k', v'⟩ := p
    by_cases h2 : k2 = k'
    · subst h2
      simp [insertA, lookupA, h]
    · by_cases h3 : k = k'
      · simp [insertA, lookupA, h2, h3]
      · simp [insertA, lookupA, h2, h3, ih]

theorem lookupA_eraseA_ne {κ ν : Type} [DecidableEq κ] {k k2 : κ}
    (l : List (κ × ν)) (h : k ≠ k2) :
    lookupA k (eraseA k2 l) = lookupA k l := by
  induction l with
  | nil => simp [eraseA]
  | cons p tl ih =>
    obtain ⟨k', v'⟩ := p
    by_cases h2 : k2 = k'
    · subst h2
      simp [eraseA, lookupA, h]
    · by_cases h3 : k = k'
      · simp [eraseA, lookupA, h2, h3]
      · simp [eraseA, lookupA, h2, h3, ih]

theorem lookupA_eq_none_of_not_mem {κ ν : Type} [DecidableEq κ] {k : κ}
    {l : List (κ × ν)} (h : k ∉ l.map Prod.fst) : lookupA k l = none := by
  induction l with
  | nil => simp [lookupA]
  | cons p tl ih =>
    obtain ⟨k', v'⟩ := p
    simp only [List.map_cons, List.mem_cons] at h
    push_neg at h
    simp [lookupA, h.1, ih h.2]

theorem eraseA_sublist {κ ν : Type} [DecidableEq κ] (k : κ) (l : List (κ × ν)) :
    (eraseA k l).Sublist l := by
  induction l with
  | nil => simp [eraseA]
  | cons p tl ih =>
    obtain ⟨k', v'⟩ := p
    simp only [eraseA]
    by_cases h : k = k'
    · rw [if_pos h]
      exact List.sublist_cons_self _ _
    · rw [if_neg h]
      exact List.Sublist.cons₂ _ ih

theorem lookupA_eraseA_self {κ ν : Type} [DecidableEq κ] {k : κ}
    {l : List (κ × ν)} (hn : (l.map Prod.fst).Nodup) :
    lookupA k (eraseA k l) = none := by
  induction l with
  | nil => simp [eraseA, lookupA]
  | cons p tl ih =>
    obtain ⟨k', v'⟩ := p
    simp only [List.map_cons, List.nodup_cons] at hn
    by_cases h : k = k'
    · subst h
      simp only [eraseA, if_pos rfl]
      exact lookupA_eq_none_of_not_mem hn.1
    · simp [eraseA, lookupA, h, ih hn.2]

theorem mem_keys_insertA {κ ν : Type} [DecidableEq κ] {x k : κ} (v : ν)
    (l : List (κ × ν)) (h : x ∈ (insertA k v l).map Prod.fst) :
    x ∈ l.map Prod.fst ∨ x = k := by
  induction l with
  | nil =>
    simp only [insertA, List.map_cons, List.map_nil, List.mem_singleton] at h
    exact Or.inr h
  | cons p tl ih =>
    obtain ⟨k', v'⟩ := p
    by_cases h2 : k = k'
    · rw [insertA, if_pos h2] at h
      rw [List.map_cons, List.mem_cons] at h
      rcases h with h | h
      · exact Or.inr h
      · exact Or.inl (List.mem_cons_of_mem _ h)
    · rw [insertA, if_neg h2] at h
      rw [List.map_cons, List.mem_cons] at h
      rw [List.map_cons, List.mem_cons]
      rcases h with h | h
      · exact Or.inl (Or.inl h)
      · rcases ih h with h3 | h3
        · exact Or.inl (Or.inr h3)
        · exact Or.inr h3

theorem nodup_keys_insertA {κ ν : Type} [DecidableEq κ] (k : κ) (v : ν)
    {l : List (κ × ν)} (h : (l.map Prod.fst).Nodup) :
    ((insertA k v l).map Prod.fst).Nodup := by
  induction l with
  | nil => simp [insertA]
  | cons p tl ih =>
    obtain ⟨k', v'⟩ := p
    rw [List.map_cons, List.nodup_cons] at h
    by_cases h2 : k = k'
    · rw [insertA, if_pos h2, List.map_cons, List.nodup_cons]
      exact ⟨h2 ▸ h.1, h.2⟩
    · rw [insertA, if_neg h2, List.map_cons, List.nodup_cons]
      refine ⟨fun hmem => ?_, ih h.2⟩
      rcases mem_keys_insertA v tl hmem with h3 | h3
      · exact h.1 h3
      · exact h2 (h3 ▸ rfl)

theorem nodup_keys_eraseA {κ ν : Type} [DecidableEq κ] (k : κ)
    {l : List (κ × ν)} (h : (l.map Prod.fst).Nodup) :
    ((eraseA k l).map Prod.fst).Nodup :=
  (((eraseA_sublist k l).map Prod.fst).nodup h)

theorem length_insertA_of_lookup_none {κ ν : Type} [DecidableEq κ] {k : κ}
    (v : ν) {l : List (κ × ν)} (h : lookupA k l = none) :
    (insertA k v l).length = l.length + 1 := by
  induction l with
  | nil => simp [insertA]
  | cons p tl ih =>
    obtain ⟨k', v'⟩ := p
    by_cases h2 : k = k'
    · simp [lookupA, h2] at h
    · simp only [lookupA, if_neg h2] at h
      simp [insertA, h2, ih h]

theorem length_eraseA_of_lookup_some {κ ν : Type} [DecidableEq κ] {k : κ}
    {v : ν} {l : List (κ × ν)} (h : lookupA k l = some v) :
    (eraseA k l).length + 1 = l.length := by
  induction l with
  | nil => simp [lookupA] at h
  | cons p tl ih =>
    obtain ⟨k', v'⟩ := p
    by_cases h2 : k = k'
    · simp [eraseA, h2]
    · simp only [lookupA, if_neg h2] at h
      simp [eraseA, h2, ih h]

/-- C1: for every loaded resource key, a failed `Reload(key)` returns an
error and leaves the store entry unchanged — a subsequent `Resolve(key)`
yields the same live object and the same VersionedID (id and generation) as
before the failed call. -/
theorem reload_failure_leaves_entry_unchanged (fs : FileSystem)
    (key : TextureKey) (s : TextureStore)
    (_hloaded : (lookupA key s.textures).isSome)
    (herr : ∃ e, (s.Reload fs key).2 = Except.error e) :
    (s.Reload fs key).1.textures = s.textures ∧
    (s.Reload fs key).1.resolve key = s.resolve key := by
  have hmain : (s.Reload fs key).1.textures = s.textures := by
    unfold TextureStore.Reload TextureStore.reloadTexture at herr ⊢
    cases hl : lookupA key s.textures with
    | none => simp [hl]
    | some lt =>
      simp only [hl] at herr ⊢
      cases hfs : fs lt.definition.Path with
      | none =>
        cases hi : lt.intermediateTexture <;> simp [hi, Texture.load, hfs]
      | some sz =>
        exfalso
        cases hi : lt.intermediateTexture <;>
          simp [hi, Texture.load, hfs] at herr
  refine ⟨hmain, ?_⟩
  unfold TextureStore.resolve
  rw [hmain]

/-- C1 witness: a store holding key `k` from `a.png`, reloaded against a
filesystem on which every open fails. -/
theorem reload_failure_leaves_entry_unchanged_witness :
    (lookupA "k" storeK.textures).isSome ∧
    ((storeK.Reload fsBroken "k").1.textures = storeK.textures ∧
     (storeK.Reload fsBroken "k").1.resolve "k" = storeK.resolve "k") :=
  ⟨by decide,
   reload_failure_leaves_entry_unchanged fsBroken "k" storeK (by decide)
     ⟨"hot-reload texture k: open texture file a.png", by decide⟩⟩

/-- C2 counterexample: after `Load k`, `Reload k` (generation 1),
`Unload k`, `Load k`, two successive `Resolve(k)` calls return non-nil
objects with non-zero VersionedIDs whose generations go from 1 back to 0 —
the generation is not monotonically non-decreasing across arbitrary
`Load`/`Reload`/`Unload` sequences. -/
theorem resolve_generation_decreases_after_unload :
    ((((storeK.Reload fsDemo "k").1).resolve "k").2.isSome ∧
     (((storeK.Reload fsDemo "k").1).resolve "k").1.generation = 1) ∧
    (((((((storeK.Reload fsDemo "k").1).Unload "k").Load fsDemo "k"
          defnA).1).resolve "k").2.isSome ∧
     ((((((storeK.Reload fsDemo "k").1).Unload "k").Load fsDemo "k"
          defnA).1).resolve "k").1 ≠ VersionedID.mk 0 0 ∧
     ((((((storeK.Reload fsDemo "k").1).Unload "k").Load fsDemo "k"
          defnA).1).resolve "k").1.generation = 0) := by
  decide

/-! Per-step effect lemmas for the texture store, feeding the per-key
generation-monotonicity invariant. -/

theorem reloadTexture_texIDSeq (fs : FileSystem) (key : TextureKey)
    (s : TextureStore) : (s.reloadTexture fs key).1.texIDSeq = s.texIDSeq := by
  unfold TextureStore.reloadTexture
  cases hl : lookupA key s.textures with
  | none => rfl
  | some lt =>
    cases hi : lt.intermediateTexture <;>
      cases hfs : fs lt.definition.Path <;>
        simp [Texture.load, hfs, hi]

/-- Effect of `reloadTexture` on the map: either unchanged, or a same-id
generation bump of the reloaded key's entry. -/
theorem reloadTexture_textures_cases (fs : FileSystem) (key : TextureKey)
    (s : TextureStore) :
    (s.reloadTexture fs key).1.textures = s.textures ∨
    ∃ lt lt2, lookupA key s.textures = some lt ∧
      lt2.id.id = lt.id.id ∧ lt2.id.generation = lt.id.generation + 1 ∧
      (s.reloadTexture fs key).1.textures = insertA key lt2 s.textures := by
  unfold TextureStore.reloadTexture
  cases hl : lookupA key s.textures with
  | none => exact Or.inl rfl
  | some lt =>
    cases hi : lt.intermediateTexture with
    | none =>
      cases hfs : fs lt.definition.Path with
      | none => exact Or.inl (by simp [Texture.load, hfs, hi])
      | some sz =>
        refine Or.inr ⟨lt,
          { id := ⟨lt.id.id, lt.id.generation + 1⟩
            texture := ⟨s.glTexSeq + 1, sz⟩
            intermediateTexture := some lt.texture
            definition := lt.definition }, rfl, rfl, rfl, ?_⟩
        simp [Texture.load, hfs, hi]
    | some it =>
      cases hfs : fs lt.definition.Path with
      | none => exact Or.inl (by simp [Texture.load, hfs, hi])
      | some sz =>
        refine Or.inr ⟨lt,
          { id := ⟨lt.id.id, lt.id.generation + 1⟩
            texture := ⟨it.tex, sz⟩
            intermediateTexture := some lt.texture
            definition := lt.definition }, rfl, rfl, rfl, ?_⟩
        simp [Texture.load, hfs, hi]

/-- Exhaustive description of what one store operation does to the map and
the id sequence: nothing; a same-id generation bump; a fresh insertion with
the next id and generation 0; a failed fresh load (sequence advanced, map
untouched); or an erasure. -/
theorem texStep_cases (op : TexOp) (s : TextureStore) :
    ((op.step s).texIDSeq = s.texIDSeq ∧ (op.step s).textures = s.textures) ∨
    (∃ key lt lt2, lookupA key s.textures = some lt ∧
       lt2.id.id = lt.id.id ∧ lt2.id.generation = lt.id.generation + 1 ∧
       (op.step s).textures = insertA key lt2 s.textures ∧
       (op.step s).texIDSeq = s.texIDSeq) ∨
    (∃ key lt2, lookupA key s.textures = none ∧
       lt2.id = ⟨s.texIDSeq + 1, 0⟩ ∧
       (op.step s).textures = insertA key lt2 s.textures ∧
       (op.step s).texIDSeq = s.texIDSeq + 1) ∨
    ((op.step s).texIDSeq = s.texIDSeq + 1 ∧ (op.step s).textures = s.textures) ∨
    (∃ key, (op.step s).textures = eraseA key s.textures ∧
       (op.step s).texIDSeq = s.texIDSeq) := by
  cases op with
  | reload fs key =>
    simp only [TexOp.step, TextureStore.Reload]
    have hseq := reloadTexture_texIDSeq fs key s
    rcases reloadTexture_textures_cases fs key s with h | ⟨lt, lt2, hl, h1, h2, h3⟩
    · exact Or.inl ⟨hseq, h⟩
    · exact Or.inr (Or.inl ⟨key, lt, lt2, hl, h1, h2, h3, hseq⟩)
  | unload key =>
    simp only [TexOp.step, TextureStore.Unload]
    unfold TextureStore.unload
    cases hl : lookupA key s.textures with
    | none => exact Or.inl ⟨rfl, rfl⟩
    | some lt => exact Or.inr (Or.inr (Or.inr (Or.inr ⟨key, rfl, rfl⟩)))
  | load fs key defn =>
    simp only [TexOp.step]
    unfold TextureStore.Load
    cases hl : lookupA key s.textures with
    | some lt =>
      rw [if_pos Option.isSome_some]
      have hseq := reloadTexture_texIDSeq fs key s
      rcases reloadTexture_textures_cases fs key s with h | ⟨lt, lt2, hl, h1, h2, h3⟩
      · exact Or.inl ⟨hseq, h⟩
      · exact Or.inr (Or.inl ⟨key, lt, lt2, hl, h1, h2, h3, hseq⟩)
    | none =>
      rw [if_neg (by simp : ¬((none : Option LoadedTexture).isSome = true))]
      cases hfs : fs defn.Path with
      | none =>
        refine Or.inr (Or.inr (Or.inr (Or.inl ?_)))
        constructor <;> simp [Texture.load, hfs]
      | some sz =>
        refine Or.inr (Or.inr (Or.inl ⟨key,
          { id := ⟨s.texIDSeq + 1, 0⟩
            texture := ⟨s.glTexSeq + 1, sz⟩
            intermediateTexture := none
            definition := defn }, hl, rfl, ?_, ?_⟩))
        · simp [Texture.load, hfs]
        · simp [Texture.load, hfs]

/-- Evolution of one store step: well-formedness is preserved, the id
sequence is monotone, surviving entries keep their id and never lose
generations, and newly appearing entries carry the freshly drawn id with
generation 0. -/
theorem texStep_evolution (op : TexOp) (s : TextureStore) (h : s.WF) :
    (op.step s).WF ∧ s.texIDSeq ≤ (op.step s).texIDSeq ∧
    (∀ k lt lt2, lookupA k s.textures = some lt →
       lookupA k (op.step s).textures = some lt2 →
       lt2.id.id = lt.id.id ∧ lt.id.generation ≤ lt2.id.generation) ∧
    (∀ k lt2, lookupA k s.textures = none →
       lookupA k (op.step s).textures = some lt2 →
       lt2.id.id = s.texIDSeq + 1 ∧ lt2.id.generation = 0) := by
  obtain ⟨hnd, hib⟩ := h
  rcases texStep_cases op s with
      ⟨hseq, htex⟩ |
      ⟨key0, lt, lt2, hl, hid, hgen, htex, hseq⟩ |
      ⟨key0, lt2, hl, hid, htex, hseq⟩ |
      ⟨hseq, htex⟩ |
      ⟨key0, htex, hseq⟩
  · refine ⟨⟨htex ▸ hnd, ?_⟩, le_of_eq hseq.symm, ?_, ?_⟩
    · intro k lt' hlk
      rw [htex] at hlk
      exact hseq ▸ hib k lt' hlk
    · intro k lt lt2 hb ha
      rw [htex, hb] at ha
      cases ha
      exact ⟨rfl, le_refl _⟩
    · intro k lt2 hb ha
      rw [htex, hb] at ha
      cases ha
  · refine ⟨⟨htex ▸ nodup_keys_insertA key0 lt2 hnd, ?_⟩, le_of_eq hseq.symm,
      ?_, ?_⟩
    · intro k lt' hlk
      rw [htex] at hlk
      rw [hseq]
      by_cases hk : k = key0
      · subst hk
        rw [lookupA_insertA_self] at hlk
        cases hlk
        exact hid ▸ hib k lt hl
      · rw [lookupA_insertA_ne _ _ hk] at hlk
        exact hib k lt' hlk
    · intro k lt' lt2' hb ha
      rw [htex] at ha
      by_cases hk : k = key0
      · subst hk
        rw [lookupA_insertA_self] at ha
        cases ha
        rw [hb] at hl
        cases hl
        exact ⟨hid, by omega⟩
      · rw [lookupA_insertA_ne _ _ hk] at ha
        rw [hb] at ha
        cases ha
        exact ⟨rfl, le_refl _⟩
    · intro k lt2' hb ha
      rw [htex] at ha
      by_cases hk : k = key0
      · subst hk
        rw [hb] at hl
        cases hl
      · rw [lookupA_insertA_ne _ _ hk, hb] at ha
        cases ha
  · refine ⟨⟨htex ▸ nodup_keys_insertA key0 lt2 hnd, ?_⟩, by omega, ?_, ?_⟩
    · intro k lt' hlk
      rw [htex] at hlk
      rw [hseq]
      by_cases hk : k = key0
      · subst hk
        rw [lookupA_insertA_self] at hlk
        cases hlk
        rw [hid]
      · rw [lookupA_insertA_ne _ _ hk] at hlk
        exact le_trans (hib k lt' hlk) (Nat.le_succ _)
    · intro k lt' lt2' hb ha
      rw [htex] at ha
      by_cases hk : k = key0
      · subst hk
        rw [hb] at hl
        cases hl
      · rw [lookupA_insertA_ne _ _ hk, hb] at ha
        cases ha
        exact ⟨rfl, le_refl _⟩
    · intro k lt2' hb ha
      rw [htex] at ha
      by_cases hk : k = key0
      · subst hk
        rw [lookupA_insertA_self] at ha
        cases ha
        rw [hid]
        exact ⟨rfl, rfl⟩
      · rw [lookupA_insertA_ne _ _ hk, hb] at ha
        cases ha
  · refine ⟨⟨htex ▸ hnd, ?_⟩, by omega, ?_, ?_⟩
    · intro k lt' hlk
      rw [htex] at hlk
      rw [hseq]
      exact le_trans (hib k lt' hlk) (Nat.le_succ _)
    · intro k lt lt2 hb ha
      rw [htex, hb] at ha
      cases ha
      exact ⟨rfl, le_refl _⟩
    · intro k lt2 hb ha
      rw [htex, hb] at ha
      cases ha
  · refine ⟨⟨htex ▸ nodup_keys_eraseA key0 hnd, ?_⟩, le_of_eq hseq.symm, ?_, ?_⟩
    · intro k lt' hlk
      rw [htex] at hlk
      rw [hseq]
      by_cases hk : k = key0
      · subst hk
        rw [lookupA_eraseA_self hnd] at hlk
        cases hlk
      · rw [lookupA_eraseA_ne _ hk] at hlk
        exact hib k lt' hlk
    · intro k lt lt2 hb ha
      rw [htex] at ha
      by_cases hk : k = key0
      · subst hk
        rw [lookupA_eraseA_self hnd] at ha
        cases ha
      · rw [lookupA_eraseA_ne _ hk, hb] at ha
        cases ha
        exact ⟨rfl, le_refl _⟩
    · intro k lt2 hb ha
      rw [htex] at ha
      by_cases hk : k = key0
      · subst hk
        rw [lookupA_eraseA_self hnd] at ha
        cases ha
      · rw [lookupA_eraseA_ne _ hk, hb] at ha
        cases ha

/-- Trace-level evolution of the texture store: along any operation
sequence, well-formedness is preserved, the id sequence is monotone, a
key's surviving entry never loses generations while its id is unchanged,
ids per key are non-decreasing, and an entry that appears for a key that
was absent carries an id strictly beyond the old sequence value. -/
theorem texRun_evolution (more : List TexOp) (s : TextureStore) (h : s.WF) :
    (runTexOps more s).WF ∧ s.texIDSeq ≤ (runTexOps more s).texIDSeq ∧
    (∀ k lt lt2, lookupA k s.textures = some lt →
        lookupA k (runTexOps more s).textures = some lt2 →
        (lt2.id.id = lt.id.id → lt.id.generation ≤ lt2.id.generation) ∧
        lt.id.id ≤ lt2.id.id) ∧
    (∀ k lt2, lookupA k s.textures = none →
        lookupA k (runTexOps more s).textures = some lt2 →
        s.texIDSeq < lt2.id.id) := by
  induction more generalizing s with
  | nil =>
    simp only [runTexOps, List.foldl_nil]
    refine ⟨h, le_refl _, ?_, ?_⟩
    · intro k lt lt2 hb ha
      rw [hb] at ha
      cases ha
      exact ⟨fun _ => le_refl _, le_refl _⟩
    · intro k lt2 hb ha
      rw [hb] at ha
      cases ha
  | cons op rest ih =>
    simp only [runTexOps, List.foldl_cons]
    obtain ⟨hwf1, hseq1, hentry1, hfresh1⟩ := texStep_evolution op s h
    obtain ⟨hwfR, hseqR, hentryR, hfreshR⟩ := ih (op.step s) hwf1
    refine ⟨hwfR, le_trans hseq1 hseqR, ?_, ?_⟩
    · intro k lt lt2 hb ha
      cases hmid : lookupA k (op.step s).textures with
      | some lt1 =>
        obtain ⟨hid1, hgen1⟩ := hentry1 k lt lt1 hb hmid
        obtain ⟨himp2, hle2⟩ := hentryR k lt1 lt2 hmid ha
        refine ⟨?_, hid1 ▸ hle2⟩
        intro heq
        exact le_trans hgen1 (himp2 (by omega))
      | none =>
        have hgt := hfreshR k lt2 hmid ha
        have hbound := h.2 k lt hb
        constructor
        · intro heq
          omega
        · omega
    · intro k lt2 hb ha
      cases hmid : lookupA k (op.step s).textures with
      | some lt1 =>
        obtain ⟨hid1, _⟩ := hfresh1 k lt1 hb hmid
        obtain ⟨_, hle2⟩ := hentryR k lt1 lt2 hmid ha
        omega
      | none =>
        have hgt := hfreshR k lt2 hmid ha
        omega

/-- C2 (amended): across any sequence of `Load`/`Reload`/`Unload` starting
from an empty store, two successive `Resolve(key)` calls that both return a
non-nil object with the same id component have non-decreasing generations.
(After an `Unload` a fresh `Load` restarts the key with a brand-new id and
generation 0, so monotonicity is per id, not per key.) -/
theorem resolve_generation_monotone_for_same_id (ops more : List TexOp)
    (key : TextureKey)
    (h1 : ((runTexOps ops TextureStore.initial).resolve key).2.isSome)
    (h2 : ((runTexOps (ops ++ more) TextureStore.initial).resolve key).2.isSome)
    (hid : ((runTexOps (ops ++ more) TextureStore.initial).resolve key).1.id
         = ((runTexOps ops TextureStore.initial).resolve key).1.id) :
    ((runTexOps ops TextureStore.initial).resolve key).1.generation
      ≤ ((runTexOps (ops ++ more) TextureStore.initial).resolve key).1.generation := by
  have happ : runTexOps (ops ++ more) TextureStore.initial
      = runTexOps more (runTexOps ops TextureStore.initial) := by
    unfold runTexOps
    exact List.foldl_append _ _ _ _
  have hwf0 : TextureStore.initial.WF := by
    constructor
    · simp [TextureStore.initial]
    · intro k lt hlk
      simp [TextureStore.initial, lookupA] at hlk
  have hwfP := (texRun_evolution ops TextureStore.initial hwf0).1
  rw [happ] at h2 hid ⊢
  unfold TextureStore.resolve at h1 h2 hid ⊢
  cases hb : lookupA key (runTexOps ops TextureStore.initial).textures with
  | none => rw [hb] at h1; simp at h1
  | some lt =>
    rw [hb] at hid
    cases ha : lookupA key
        (runTexOps more (runTexOps ops TextureStore.initial)).textures with
    | none => rw [ha] at h2; simp at h2
    | some lt2 =>
      rw [ha] at hid
      have := (texRun_evolution more (runTexOps ops TextureStore.initial)
        hwfP).2.2.1 key lt lt2 hb ha
      exact this.1 hid

/-- C2 amended-claim witness: load then hot-reload of one key; both
resolves return the same id 1 and generations 0 then 1. -/
theorem resolve_generation_monotone_for_same_id_witness :
    ((runTexOps [TexOp.load fsDemo "k" defnA] TextureStore.initial).resolve
        "k").2.isSome ∧
    ((runTexOps ([TexOp.load fsDemo "k" defnA] ++ [TexOp.reload fsDemo "k"])
        TextureStore.initial).resolve "k").2.isSome ∧
    ((runTexOps [TexOp.load fsDemo "k" defnA] TextureStore.initial).resolve
        "k").1.generation
      ≤ ((runTexOps ([TexOp.load fsDemo "k" defnA] ++
            [TexOp.reload fsDemo "k"]) TextureStore.initial).resolve
          "k").1.generation :=
  ⟨by decide, by decide,
   resolve_generation_monotone_for_same_id [TexOp.load fsDemo "k" defnA]
     [TexOp.reload fsDemo "k"] "k" (by decide) (by decide) (by decide)⟩

/-- C3: evaluation at the failing input.  Two `Load` calls on the same key
with two valid definitions (`a.png` = 10×10, then `b.png` = 20×20): the id
stays 1 and the generation becomes 1 as the claim says, but `Resolve`
reports the **first** file's size (10,10) rather than the second's, because
`Load` stores the new definition only in a discarded local copy of the map
entry and the reload rebuilds the old definition. -/
theorem load_twice_rebuilds_old_definition :
    (((storeK.Load fsDemo "k" defnB).1.resolve "k").1 = VersionedID.mk 1 1) ∧
    (((storeK.Load fsDemo "k" defnB).1.resolve "k").2.map Texture.size
       = some ⟨10, 10⟩) ∧
    lookupA "k" (storeK.Load fsDemo "k" defnB).1.textures
      = some { id := ⟨1, 1⟩, texture := ⟨2, ⟨10, 10⟩⟩,
               intermediateTexture := some ⟨1, ⟨10, 10⟩⟩, definition := defnA } := by
  decide

/-- C4: evaluation at the failing input.  With textures `A` and `B` loaded,
binding `A` then `B` allocates slot 1 for `B` and records it in the slot
table, but writes 0 — the Go zero value of the never-reassigned local
`binding` — into `B`'s sampler uniform instead of the allocated slot 1. -/
theorem first_bind_writes_zero_into_uniform :
    (lookupA "B" (((SamplerManager.initial 4).bind storeAB 7 "A").1.bind
        storeAB 8 "B").1.texBinding = some { texture := ⟨2, 0⟩, sampler := 1 }) ∧
    GlCall.uniform1i 8 0 ∈
      (((SamplerManager.initial 4).bind storeAB 7 "A").1.bind storeAB 8 "B").2 ∧
    ¬ (GlCall.uniform1i 8 1 ∈
      (((SamplerManager.initial 4).bind storeAB 7 "A").1.bind storeAB 8 "B").2) := by
  decide

/-- C5: evaluation at the failing input.  Key `k` is bound (recording
generation 0), the texture is hot-reloaded to generation 1, and `k` is
bound again: the same slot 0 is rebound to the new GPU object (handle 2),
but the recorded generation in the slot table stays 0 — the update
`binding.texture = texID` mutates only a local copy, never the map — so
the claim's "recorded generation is updated" fails and every later bind
keeps re-issuing the rebind. -/
theorem rebind_keeps_stale_recorded_generation :
    ((((storeK.Reload fsDemo "k").1).resolve "k").1.generation = 1) ∧
    (lookupA "k" (((SamplerManager.initial 4).bind storeK 7 "k").1.bind
        (storeK.Reload fsDemo "k").1 7 "k").1.texBinding
      = some { texture := ⟨1, 0⟩, sampler := 0 }) ∧
    GlCall.bindTexture 2 ∈
      (((SamplerManager.initial 4).bind storeK 7 "k").1.bind
        (storeK.Reload fsDemo "k").1 7 "k").2 ∧
    GlCall.activeTexture 0 ∈
      (((SamplerManager.initial 4).bind storeK 7 "k").1.bind
        (storeK.Reload fsDemo "k").1 7 "k").2 := by
  decide

/-! Lemmas about `List.set`, `List.count` and `firstFalse`, feeding the
sampler-manager slot-table invariant. -/

theorem get?_set_self (l : List α) (i : Nat) (a : α) (h : i < l.length) :
    (l.set i a).get? i = some a := by
  induction l generalizing i with
  | nil => simp at h
  | cons hd tl ih =>
    cases i with
    | zero => rfl
    | succ j => exact ih j (Nat.lt_of_succ_lt_succ h)

theorem get?_set_ne (l : List α) {i j : Nat} (a : α) (h : i ≠ j) :
    (l.set i a).get? j = l.get? j := by
  induction l generalizing i j with
  | nil => simp
  | cons hd tl ih =>
    cases i with
    | zero =>
      cases j with
      | zero => exact absurd rfl h
      | succ j2 => rfl
    | succ i2 =>
      cases j with
      | zero => rfl
      | succ j2 => exact ih (fun he => h (he ▸ rfl))

theorem count_true_set_true (l : List Bool) (i : Nat)
    (h : l.get? i = some false) :
    (l.set i true).count true = l.count true + 1 := by
  induction l generalizing i with
  | nil => simp at h
  | cons hd tl ih =>
    cases i with
    | zero =>
      cases h
      simp [List.count_cons]
    | succ j =>
      have h2 := ih j h
      cases hd <;> simp [List.count_cons, h2]

theorem count_true_set_false (l : List Bool) (i : Nat)
    (h : l.get? i = some true) :
    (l.set i false).count true + 1 = l.count true := by
  induction l generalizing i with
  | nil => simp at h
  | cons hd tl ih =>
    cases i with
    | zero =>
      cases h
      simp [List.count_cons]
    | succ j =>
      have h2 := ih j h
      cases hd <;> simp [List.count_cons] <;> omega

theorem firstFalse_get (l : List Bool) (i : Nat) (h : firstFalse l = some i) :
    l.get? i = some false := by
  induction l generalizing i with
  | nil => simp [firstFalse] at h
  | cons hd tl ih =>
    cases hd with
    | false =>
      simp [firstFalse] at h
      subst h
      rfl
    | true =>
      simp only [firstFalse, if_true] at h
      rw [Option.map_eq_some'] at h
      obtain ⟨j, hf, hji⟩ := h
      subst hji
      exact ih j hf

theorem get?_lt_length {l : List α} {i : Nat} {a : α} (h : l.get? i = some a) :
    i < l.length := by
  by_contra hge
  rw [List.get?_eq_none.mpr (Nat.le_of_not_lt hge)] at h
  cases h

/-- Effect of `samplerManager.bind` on the slot table: unchanged, unless a
resolved, not-yet-bound texture is assigned a free slot. -/
theorem bind_state_cases (store : TextureStore) (loc : Int) (key : TextureKey)
    (t : SamplerManager) :
    (t.bind store loc key).1 = t ∨
    ∃ tid tex sampler, store.resolve key = (tid, some tex) ∧
      lookupA key t.texBinding = none ∧
      t.unusedSampler = some sampler ∧
      (t.bind store loc key).1 =
        { t with
            activeBindings := t.activeBindings.set sampler true
            texBinding := insertA key ⟨tid, sampler⟩ t.texBinding } := by
  unfold SamplerManager.bind
  cases hres : store.resolve key with
  | mk tid otex =>
    cases otex with
    | none => exact Or.inl rfl
    | some tex =>
      cases hlk : lookupA key t.texBinding with
      | some binding =>
        refine Or.inl ?_
        dsimp only
        split <;> rfl
      | none =>
        cases hfree : t.unusedSampler with
        | none => exact Or.inl rfl
        | some sampler => exact Or.inr ⟨tid, tex, sampler, rfl, rfl, rfl, rfl⟩

/-- Effect of `samplerManager.unbind` on the slot table. -/
theorem unbind_state_cases (key : TextureKey) (t : SamplerManager) :
    (t.unbind key).1 = t ∨
    ∃ binding, lookupA key t.texBinding = some binding ∧
      (t.unbind key).1 =
        { t with
            texBinding := eraseA key t.texBinding
            activeBindings := t.activeBindings.set binding.sampler false } := by
  unfold SamplerManager.unbind
  cases hlk : lookupA key t.texBinding with
  | none => exact Or.inl rfl
  | some binding => exact Or.inr ⟨binding, rfl, rfl⟩

/-- One sampler-manager operation preserves the slot-table invariant. -/
theorem smStep_WF (op : SmOp) (t : SamplerManager) (h : t.WF) :
    (op.step t).WF := by
  obtain ⟨hlen, hnd, hact, hinj, hcnt⟩ := h
  cases op with
  | bindOp store loc key =>
    show ((t.bind store loc key).1).WF
    rcases bind_state_cases store loc key t with heq |
        ⟨tid, tex, sampler, hres, hlk, hfree, heq⟩
    · rw [heq]; exact ⟨hlen, hnd, hact, hinj, hcnt⟩
    · rw [heq]
      have hgetF : t.activeBindings.get? sampler = some false :=
        firstFalse_get _ _ hfree
      have hslt : sampler < t.activeBindings.length := get?_lt_length hgetF
      have holdNe : ∀ k b, lookupA k t.texBinding = some b →
          b.sampler ≠ sampler := by
        intro k b hb he
        have hold := hact k b hb
        rw [he, hgetF] at hold
        exact Bool.noConfusion (Option.some.inj hold)
      refine ⟨by rw [List.length_set]; exact hlen,
        nodup_keys_insertA _ _ hnd, ?_, ?_, ?_⟩
      · intro k b hb
        by_cases hk : k = key
        · subst hk
          rw [lookupA_insertA_self] at hb
          cases hb
          exact get?_set_self _ _ _ hslt
        · rw [lookupA_insertA_ne _ _ hk] at hb
          dsimp only
          rw [get?_set_ne _ _ (Ne.symm (holdNe k b hb))]
          exact hact k b hb
      · intro k1 k2 b1 b2 hk12 hb1 hb2
        by_cases h1 : k1 = key
        · subst h1
          rw [lookupA_insertA_self] at hb1
          cases hb1
          rw [lookupA_insertA_ne _ _ (Ne.symm hk12)] at hb2
          exact fun he => holdNe k2 b2 hb2 (he ▸ rfl)
        · rw [lookupA_insertA_ne _ _ h1] at hb1
          by_cases h2 : k2 = key
          · subst h2
            rw [lookupA_insertA_self] at hb2
            cases hb2
            exact holdNe k1 b1 hb1
          · rw [lookupA_insertA_ne _ _ h2] at hb2
            exact hinj k1 k2 b1 b2 hk12 hb1 hb2
      · dsimp only
        rw [count_true_set_true _ _ hgetF, length_insertA_of_lookup_none _ hlk,
          hcnt]
  | unbindOp key =>
    show ((t.unbind key).1).WF
    rcases unbind_state_cases key t with heq | ⟨binding, hlk, heq⟩
    · rw [heq]; exact ⟨hlen, hnd, hact, hinj, hcnt⟩
    · rw [heq]
      have hget : t.activeBindings.get? binding.sampler = some true :=
        hact key binding hlk
      refine ⟨by rw [List.length_set]; exact hlen,
        nodup_keys_eraseA _ hnd, ?_, ?_, ?_⟩
      · intro k b hb
        by_cases hk : k = key
        · subst hk
          rw [lookupA_eraseA_self hnd] at hb
          cases hb
        · rw [lookupA_eraseA_ne _ hk] at hb
          have hne : binding.sampler ≠ b.sampler := hinj key k binding b
            (fun he => hk he.symm) hlk hb
          dsimp only
          rw [get?_set_ne _ _ hne]
          exact hact k b hb
      · intro k1 k2 b1 b2 hk12 hb1 hb2
        by_cases h1 : k1 = key
        · subst h1
          rw [lookupA_eraseA_self hnd] at hb1
          cases hb1
        · by_cases h2 : k2 = key
          · subst h2
            rw [lookupA_eraseA_self hnd] at hb2
            cases hb2
          · rw [lookupA_eraseA_ne _ h1] at hb1
            rw [lookupA_eraseA_ne _ h2] at hb2
            exact hinj k1 k2 b1 b2 hk12 hb1 hb2
      · dsimp only
        have hc := count_true_set_false _ _ hget
        have hl := length_eraseA_of_lookup_some hlk
        omega

theorem smStep_maxSampler (op : SmOp) (t : SamplerManager) :
    (op.step t).maxSampler = t.maxSampler := by
  cases op with
  | bindOp store loc key =>
    show ((t.bind store loc key).1).maxSampler = _
    rcases bind_state_cases store loc key t with heq |
        ⟨_, _, _, _, _, _, heq⟩ <;> rw [heq]
  | unbindOp key =>
    show ((t.unbind key).1).maxSampler = _
    rcases unbind_state_cases key t with heq | ⟨_, _, heq⟩ <;> rw [heq]

theorem runSmOps_cons (op : SmOp) (ops : List SmOp) (t : SamplerManager) :
    runSmOps (op :: ops) t = runSmOps ops (op.step t) := rfl

theorem smRun_WF (ops : List SmOp) (t : SamplerManager) (h : t.WF) :
    (runSmOps ops t).WF ∧ (runSmOps ops t).maxSampler = t.maxSampler := by
  induction ops generalizing t with
  | nil => exact ⟨h, rfl⟩
  | cons op rest ih =>
    rw [runSmOps_cons]
    obtain ⟨hwf, hmax⟩ := ih (op.step t) (smStep_WF op t h)
    exact ⟨hwf, hmax.trans (smStep_maxSampler op t)⟩

theorem count_true_replicate_false (n : Nat) :
    (List.replicate n false).count true = 0 := by
  induction n with
  | zero => rfl
  | succ m ih => simp [List.replicate_succ, List.count_cons, ih]

theorem samplerManager_initial_WF (n : Nat) : (SamplerManager.initial n).WF := by
  refine ⟨List.length_replicate _ _, List.nodup_nil, ?_, ?_, ?_⟩
  · intro k b hb
    simp [lookupA] at hb
  · intro k1 k2 b1 b2 _ hb1 _
    simp [lookupA] at hb1
  · exact (count_true_replicate_false n).trans rfl

theorem bind_full_unchanged (t : SamplerManager) (store : TextureStore)
    (loc : Int) (key : TextureKey) (hfull : t.unusedSampler = none)
    (hun : lookupA key t.texBinding = none) :
    (t.bind store loc key).1 = t ∧
    GlCall.assertFailed ∈ (t.bind store loc key).2 := by
  unfold SamplerManager.bind
  cases hres : store.resolve key with
  | mk tid otex =>
    cases otex with
    | none => exact ⟨rfl, by simp⟩
    | some tex =>
      rw [hun, hfull]
      exact ⟨rfl, by simp⟩

/-- C6: across any sequence of bind/unbind operations from a fresh sampler
manager with `n` hardware units: no two distinct texture keys ever occupy
the same slot, the number of occupied slots never exceeds `n`, and a bind
of an unbound key attempted while every slot is occupied reports a failure
(`assert.Fail`) and leaves the slot table unchanged. -/
theorem samplerManager_slot_invariants (n : Nat) (ops : List SmOp) :
    (∀ k1 k2 b1 b2, k1 ≠ k2 →
        lookupA k1 (runSmOps ops (SamplerManager.initial n)).texBinding
          = some b1 →
        lookupA k2 (runSmOps ops (SamplerManager.initial n)).texBinding
          = some b2 →
        b1.sampler ≠ b2.sampler) ∧
    (runSmOps ops (SamplerManager.initial n)).texBinding.length ≤ n ∧
    (∀ store loc key,
        (runSmOps ops (SamplerManager.initial n)).unusedSampler = none →
        lookupA key (runSmOps ops (SamplerManager.initial n)).texBinding
          = none →
        ((runSmOps ops (SamplerManager.initial n)).bind store loc key).1
          = runSmOps ops (SamplerManager.initial n) ∧
        GlCall.assertFailed ∈
          ((runSmOps ops (SamplerManager.initial n)).bind store loc key).2) := by
  obtain ⟨hwf, hmax⟩ :=
    smRun_WF ops (SamplerManager.initial n) (samplerManager_initial_WF n)
  obtain ⟨hlen, hnd, hact, hinj, hcnt⟩ := hwf
  refine ⟨hinj, ?_, ?_⟩
  · rw [← hcnt]
    have h2 := List.count_le_length
      (a := true) (l := (runSmOps ops (SamplerManager.initial n)).activeBindings)
    rw [hlen, hmax] at h2
    exact h2
  · intro store loc key hfull hun
    exact bind_full_unchanged _ store loc key hfull hun

/-- C6 witness: with two units both occupied (`A`→0, `B`→1), the occupied
slots are distinct, the table size is within bounds, and binding the
unbound key `C` fails and leaves the table unchanged. -/
theorem samplerManager_slot_invariants_witness :
    (lookupA "A" smFull.texBinding = some { texture := ⟨1, 0⟩, sampler := 0 }) ∧
    (lookupA "B" smFull.texBinding = some { texture := ⟨2, 0⟩, sampler := 1 }) ∧
    (TexBinding.sampler { texture := ⟨1, 0⟩, sampler := 0 }
      ≠ TexBinding.sampler { texture := ⟨2, 0⟩, sampler := 1 }) ∧
    smFull.texBinding.length ≤ 2 ∧
    smFull.unusedSampler = none ∧
    lookupA "C" smFull.texBinding = none ∧
    ((smFull.bind storeAB 9 "C").1 = smFull ∧
      GlCall.assertFailed ∈ (smFull.bind storeAB 9 "C").2) := by
  have h := samplerManager_slot_invariants 2
    [SmOp.bindOp storeAB 7 "A", SmOp.bindOp storeAB 8 "B"]
  refine ⟨by decide, by decide, ?_, ?_, by decide, by decide, ?_⟩
  · exact h.1 "A" "B" _ _ (by decide) (by decide) (by decide)
  · exact h.2.1
  · exact h.2.2 storeAB 9 "C" (by decide) (by decide)

/-! Characterization of `RenderState.applyShader` / `applyMaterial`,
feeding the state-diffing claim. -/

theorem applyShader_of_resolve (r : RenderState) (key : ShaderProgKey)
    (sProg : ShaderProgram) (sid : VersionedID)
    (hres : r.shaders.resolve key = (some sProg, sid)) :
    r.applyShader key =
      (some sProg, { r with sProgID := sid },
       if r.sProgID ≠ sid then
         [GlCall.useProgram sProg.program]
           ++ (if sProg.vpMatrixLocation ≥ 0 then
                 [GlCall.uniformMatrixFv sProg.vpMatrixLocation 16]
               else [])
       else []) := by
  unfold RenderState.applyShader
  rw [hres]
  dsimp only
  by_cases h : r.sProgID = sid
  · rw [if_neg (fun hne => hne h), if_neg (fun hne => hne h)]
    subst h
    rfl
  · rw [if_pos h, if_pos h]

theorem applyMaterial_of_push (r : RenderState) (mat : Material)
    (sProg : ShaderProgram) (sid : VersionedID)
    (hres : r.shaders.resolve mat.sProgKey = (some sProg, sid))
    (hm : r.material ≠ some mat.matId) :
    r.applyMaterial mat =
      (some sProg,
       { r with
          sProgID := sid
          samplerManager := (mat.apply sProg r.textures r.samplerManager).1
          material := some mat.matId },
       (if r.sProgID ≠ sid then
          [GlCall.useProgram sProg.program]
            ++ (if sProg.vpMatrixLocation ≥ 0 then
                  [GlCall.uniformMatrixFv sProg.vpMatrixLocation 16]
                else [])
        else [])
         ++ (mat.apply sProg r.textures r.samplerManager).2
         ++ (if sProg.modelTransformLocation ≥ 0 then
               [GlCall.uniformMatrixFv sProg.modelTransformLocation 16]
             else [])) := by
  unfold RenderState.applyMaterial
  rw [applyShader_of_resolve r mat.sProgKey sProg sid hres]
  dsimp only
  rw [if_pos hm]

theorem applyMaterial_of_skip (r : RenderState) (mat : Material)
    (sProg : ShaderProgram) (sid : VersionedID)
    (hres : r.shaders.resolve mat.sProgKey = (some sProg, sid))
    (hm : r.material = some mat.matId) :
    r.applyMaterial mat =
      (some sProg, { r with sProgID := sid },
       (if r.sProgID ≠ sid then
          [GlCall.useProgram sProg.program]
            ++ (if sProg.vpMatrixLocation ≥ 0 then
                  [GlCall.uniformMatrixFv sProg.vpMatrixLocation 16]
                else [])
        else [])
         ++ (if sProg.modelTransformLocation ≥ 0 then
               [GlCall.uniformMatrixFv sProg.modelTransformLocation 16]
             else [])) := by
  unfold RenderState.applyMaterial
  rw [applyShader_of_resolve r mat.sProgKey sProg sid hres]
  dsimp only
  rw [if_neg (fun hne => hne hm)]
  simp

/-- C7: state-diffing of material application.  With a resolved, stable
shader: a first `applyMaterial(m)` pushes the shader activation (when
needed), all of `m`'s uniform values and texture bindings, and the model
transform; an immediately repeated `applyMaterial(m)` with the identical
material object emits only the model-transform push — zero uploads for the
material's uniforms — and leaves the render state unchanged; applying a
*different* material object `m2` afterwards pushes `m2`'s uniforms and
texture bindings again. -/
theorem applyMaterial_state_diffing (mat mat2 : Material) (r0 : RenderState)
    (sProg : ShaderProgram) (sid : VersionedID)
    (hres : r0.shaders.resolve mat.sProgKey = (some sProg, sid))
    (hm0 : r0.material ≠ some mat.matId)
    (hkey2 : mat2.sProgKey = mat.sProgKey)
    (hm2 : mat2.matId ≠ mat.matId) :
    ((r0.applyMaterial mat).2.2 =
       (if r0.sProgID ≠ sid then
          [GlCall.useProgram sProg.program]
            ++ (if sProg.vpMatrixLocation ≥ 0 then
                  [GlCall.uniformMatrixFv sProg.vpMatrixLocation 16]
                else [])
        else [])
         ++ (mat.apply sProg r0.textures r0.samplerManager).2
         ++ (if sProg.modelTransformLocation ≥ 0 then
               [GlCall.uniformMatrixFv sProg.modelTransformLocation 16]
             else [])) ∧
    (((r0.applyMaterial mat).2.1).applyMaterial mat).2.2 =
      (if sProg.modelTransformLocation ≥ 0 then
         [GlCall.uniformMatrixFv sProg.modelTransformLocation 16]
       else []) ∧
    (((r0.applyMaterial mat).2.1).applyMaterial mat).2.1
      = (r0.applyMaterial mat).2.1 ∧
    (((r0.applyMaterial mat).2.1).applyMaterial mat2).2.2 =
      (mat2.apply sProg ((r0.applyMaterial mat).2.1).textures
          ((r0.applyMaterial mat).2.1).samplerManager).2
        ++ (if sProg.modelTransformLocation ≥ 0 then
              [GlCall.uniformMatrixFv sProg.modelTransformLocation 16]
            else []) := by
  have hfirst := applyMaterial_of_push r0 mat sProg sid hres hm0
  have hr1 : (r0.applyMaterial mat).2.1 =
      { r0 with
          sProgID := sid
          samplerManager := (mat.apply sProg r0.textures r0.samplerManager).1
          material := some mat.matId } := by rw [hfirst]
  have hres1 : ((r0.applyMaterial mat).2.1).shaders.resolve mat.sProgKey
      = (some sProg, sid) := by rw [hr1]; exact hres
  have hres2 : ((r0.applyMaterial mat).2.1).shaders.resolve mat2.sProgKey
      = (some sProg, sid) := by rw [hkey2]; exact hres1
  have hmat1 : ((r0.applyMaterial mat).2.1).material = some mat.matId := by
    rw [hr1]
  have hsid1 : ((r0.applyMaterial mat).2.1).sProgID = sid := by rw [hr1]
  refine ⟨by rw [hfirst], ?_, ?_, ?_⟩
  · rw [applyMaterial_of_skip _ mat sProg sid hres1 hmat1]
    rw [if_neg (fun hne => hne hsid1)]
    simp
  · rw [applyMaterial_of_skip _ mat sProg sid hres1 hmat1]
    dsimp only
    rw [hr1]
  · rw [applyMaterial_of_push _ mat2 sProg sid hres2
      (by rw [hmat1]; exact fun he => hm2 (Option.some.inj he).symm)]
    rw [if_neg (fun hne => hne hsid1)]
    simp

/-- C7 witness: demo shader and two distinct material objects on the same
key; evaluates the three conclusions concretely. -/
theorem applyMaterial_state_diffing_witness :
    ((rsDemo.applyMaterial matDemo).2.2 =
       [GlCall.useProgram 11, GlCall.uniformFv 3 3, GlCall.uniformMatrixFv 7 16]) ∧
    (((rsDemo.applyMaterial matDemo).2.1).applyMaterial matDemo).2.2 =
      [GlCall.uniformMatrixFv 7 16] ∧
    (((rsDemo.applyMaterial matDemo).2.1).applyMaterial matDemo).2.1
      = (rsDemo.applyMaterial matDemo).2.1 ∧
    (((rsDemo.applyMaterial matDemo).2.1).applyMaterial matDemo2).2.2 =
      [GlCall.uniformFv 3 3, GlCall.uniformMatrixFv 7 16] := by
  have h := applyMaterial_state_diffing matDemo matDemo2 rsDemo sProgDemo
    ⟨1, 0⟩ (by decide) (by decide) (by decide) (by decide)
  obtain ⟨h1, h2, h3, h4⟩ := h
  refine ⟨?_, ?_, h3, ?_⟩
  · rw [h1]; decide
  · rw [h2]; decide
  · rw [h4]; decide

/-! No event emitted by shader activation or material application is a draw
submission; only `Mesh.Draw` itself issues draws.  These lemmas isolate the
draw-call counter discipline. -/

theorem bind_no_draw (store : TextureStore) (loc : Int) (key : TextureKey)
    (t : SamplerManager) :
    ((t.bind store loc key).2).any GlCall.isDraw = false := by
  unfold SamplerManager.bind
  cases hres : store.resolve key with
  | mk tid otex =>
    cases otex with
    | none => rfl
    | some tex =>
      cases hlk : lookupA key t.texBinding with
      | some binding =>
        dsimp only
        split <;> rfl
      | none =>
        cases hfree : t.unusedSampler with
        | none => rfl
        | some sampler => rfl

theorem unbind_no_draw (key : TextureKey) (t : SamplerManager) :
    ((t.unbind key).2).any GlCall.isDraw = false := by
  unfold SamplerManager.unbind
  cases hlk : lookupA key t.texBinding with
  | none => rfl
  | some binding => rfl

theorem texFold_no_draw (sProg : ShaderProgram) (store : TextureStore)
    (l : List (String × TextureKey)) (acc : SamplerManager × List GlCall)
    (hacc : acc.2.any GlCall.isDraw = false) :
    ((l.foldl (applyTextureBinding sProg store) acc).2).any GlCall.isDraw
      = false := by
  induction l generalizing acc with
  | nil => exact hacc
  | cons e tl ih =>
    rw [List.foldl_cons]
    refine ih _ ?_
    unfold applyTextureBinding
    dsimp only
    split
    · simp [List.any_append, hacc, GlCall.isDraw]
    · dsimp only
      rw [List.any_append, hacc, bind_no_draw]
      rfl

theorem uniFold_no_draw {β : Type} (f : β → List GlCall)
    (hf : ∀ b, (f b).any GlCall.isDraw = false) (l : List β)
    (acc : List GlCall) (hacc : acc.any GlCall.isDraw = false) :
    ((l.foldl (fun a e => a ++ f e) acc).any GlCall.isDraw) = false := by
  induction l generalizing acc with
  | nil => exact hacc
  | cons e tl ih =>
    rw [List.foldl_cons]
    refine ih _ ?_
    rw [List.any_append, hacc, hf]
    rfl

theorem applyUniformF_no_draw (sProg : ShaderProgram) (e : String × List Float32) :
    (applyUniformF sProg e).any GlCall.isDraw = false := by
  unfold applyUniformF
  dsimp only
  split
  · rfl
  · split <;> rfl

theorem applyUniformMat_no_draw (sProg : ShaderProgram)
    (e : String × List Float32) :
    (applyUniformMat sProg e).any GlCall.isDraw = false := by
  unfold applyUniformMat
  dsimp only
  split
  · rfl
  · split <;> rfl

theorem applyUniformI_no_draw (sProg : ShaderProgram) (e : String × List Int) :
    (applyUniformI sProg e).any GlCall.isDraw = false := by
  unfold applyUniformI
  dsimp only
  split
  · rfl
  · split <;> rfl

theorem matApply_no_draw (mat : Material) (sProg : ShaderProgram)
    (store : TextureStore) (sm : SamplerManager) :
    ((mat.apply sProg store sm).2).any GlCall.isDraw = false := by
  unfold Material.apply
  dsimp only
  rw [List.any_append, List.any_append, List.any_append]
  rw [texFold_no_draw sProg store mat.textures (sm, []) rfl]
  rw [uniFold_no_draw _ (applyUniformF_no_draw sProg) mat.uniformf [] rfl]
  rw [uniFold_no_draw _ (applyUniformMat_no_draw sProg) mat.uniformMat [] rfl]
  rw [uniFold_no_draw _ (applyUniformI_no_draw sProg) mat.uniformi [] rfl]
  rfl

theorem applyShader_no_draw (r : RenderState) (key : ShaderProgKey) :
    ((r.applyShader key).2.2).any GlCall.isDraw = false := by
  unfold RenderState.applyShader
  cases hres : r.shaders.resolve key with
  | mk osp sid =>
    cases osp with
    | none => rfl
    | some sProg =>
      dsimp only
      split
      · rw [List.any_append]
        split <;> rfl
      · rfl

theorem applyMaterial_no_draw (r : RenderState) (mat : Material) :
    ((r.applyMaterial mat).2.2).any GlCall.isDraw = false := by
  unfold RenderState.applyMaterial
  cases happ : r.applyShader mat.sProgKey with
  | mk osp rl =>
    cases rl with
    | mk r1 log =>
      have hsh := applyShader_no_draw r mat.sProgKey
      rw [happ] at hsh
      cases osp with
      | none => exact hsh
      | some sProg =>
        dsimp only
        rw [List.any_append, List.any_append, hsh]
        split
        · dsimp only
          rw [matApply_no_draw]
          split <;> rfl
        · dsimp only
          split <;> rfl

theorem applyShader_counters (r : RenderState) (key : ShaderProgKey) :
    ((r.applyShader key).2.1).totalDrawCalls = r.totalDrawCalls ∧
    ((r.applyShader key).2.1).totalPrimitives = r.totalPrimitives := by
  unfold RenderState.applyShader
  cases hres : r.shaders.resolve key with
  | mk osp sid =>
    cases osp with
    | none => exact ⟨rfl, rfl⟩
    | some sProg =>
      dsimp only
      split
      · exact ⟨rfl, rfl⟩
      · exact ⟨rfl, rfl⟩

theorem applyMaterial_counters (r : RenderState) (mat : Material) :
    ((r.applyMaterial mat).2.1).totalDrawCalls = r.totalDrawCalls ∧
    ((r.applyMaterial mat).2.1).totalPrimitives = r.totalPrimitives := by
  unfold RenderState.applyMaterial
  cases happ : r.applyShader mat.sProgKey with
  | mk osp rl =>
    cases rl with
    | mk r1 log =>
      have hc := applyShader_counters r mat.sProgKey
      rw [happ] at hc
      cases osp with
      | none => exact hc
      | some sProg =>
        dsimp only
        split
        · exact hc
        · exact hc

theorem calcVertexData_primitiveCount (m : Mesh) (shaders : ShaderStore) :
    ((m.calcVertexData shaders).1).primitiveCount = m.primitiveCount := by
  unfold Mesh.calcVertexData
  cases hres : shaders.resolve m.material.sProgKey with
  | mk osp sid =>
    cases osp with
    | none => rfl
    | some sProg =>
      dsimp only
      split <;> rfl

/-- Every `Mesh.Draw` whose emitted GL calls include a draw submission
bumps `totalDrawCalls` by exactly 1 and `totalPrimitives` by exactly the
mesh's primitive count. -/
theorem draw_increment (m : Mesh) (r : RenderState)
    (h : ((m.Draw r).2.2).any GlCall.isDraw = true) :
    (m.Draw r).2.1.totalDrawCalls = r.totalDrawCalls + 1 ∧
    (m.Draw r).2.1.totalPrimitives = r.totalPrimitives + m.primitiveCount := by
  unfold Mesh.Draw at h ⊢
  by_cases h0 : m.indexCount = 0
  · rw [if_pos h0] at h
    cases h
  · rw [if_neg h0] at h ⊢
    cases happ : r.applyMaterial m.material with
    | mk osp rl =>
      cases rl with
      | mk r1 log =>
        have hnd := applyMaterial_no_draw r m.material
        rw [happ] at hnd
        rw [happ] at h
        cases osp with
        | none =>
          dsimp only at h hnd
          rw [hnd] at h
          cases h
        | some sProg =>
          dsimp only
          obtain ⟨hc1, hc2⟩ := applyMaterial_counters r m.material
          rw [happ] at hc1 hc2
          refine ⟨by rw [hc1], ?_⟩
          rw [hc2]
          congr 1
          split
          · rw [calcVertexData_primitiveCount]
          · rfl

/-- C9: `Mesh.Draw` with a zero index/vertex count is a complete no-op
(render state untouched, no GL calls); every draw that issues a draw call
increments `totalDrawCalls` by exactly 1 and `totalPrimitives` by exactly
the mesh's primitive count; drawing two meshes in sequence on one render
state yields `totalDrawCalls = 2` more than before. -/
theorem mesh_draw_counter_discipline (m m2 : Mesh) (r : RenderState) :
    (m.indexCount = 0 → m.Draw r = (m, r, [])) ∧
    (((m.Draw r).2.2).any GlCall.isDraw = true →
       (m.Draw r).2.1.totalDrawCalls = r.totalDrawCalls + 1 ∧
       (m.Draw r).2.1.totalPrimitives = r.totalPrimitives + m.primitiveCount) ∧
    (((m.Draw r).2.2).any GlCall.isDraw = true →
       ((m2.Draw (m.Draw r).2.1).2.2).any GlCall.isDraw = true →
       (m2.Draw (m.Draw r).2.1).2.1.totalDrawCalls = r.totalDrawCalls + 2) := by
  refine ⟨?_, draw_increment m r, ?_⟩
  · intro h0
    unfold Mesh.Draw
    rw [if_pos h0]
  · intro h1 h2
    obtain ⟨ha, _⟩ := draw_increment m r h1
    obtain ⟨hb, _⟩ := draw_increment m2 (m.Draw r).2.1 h2
    omega

/-- C9 witness: the demo mesh drawn twice on a fresh render state (and a
zero-count variant as the no-op case). -/
theorem mesh_draw_counter_discipline_witness :
    ({ meshDemo with indexCount := 0 }.indexCount = 0 →
      { meshDemo with indexCount := 0 }.Draw rsDemo
        = ({ meshDemo with indexCount := 0 }, rsDemo, [])) ∧
    (((meshDemo.Draw rsDemo).2.2).any GlCall.isDraw = true) ∧
    ((meshDemo.Draw rsDemo).2.1.totalDrawCalls = rsDemo.totalDrawCalls + 1) ∧
    (((meshDemo.Draw (meshDemo.Draw rsDemo).2.1).2.2).any GlCall.isDraw
      = true) ∧
    (meshDemo.Draw (meshDemo.Draw rsDemo).2.1).2.1.totalDrawCalls
      = rsDemo.totalDrawCalls + 2 := by
  have h := mesh_draw_counter_discipline meshDemo meshDemo rsDemo
  have hz := (mesh_draw_counter_discipline
    { meshDemo with indexCount := 0 } meshDemo rsDemo).1
  refine ⟨fun _ => hz rfl, by decide, ?_, by decide, ?_⟩
  · exact (h.2.1 (by decide)).1
  · exact h.2.2 (by decide) (by decide)

/-- C10: `Geometry.Append` on a non-empty geometry with a compatible
appended geometry (same primitive type, same ordered attribute list, same
interleaved layout, combined vertex count indexable by `uint16`, appended
indices in range) is exactly concatenation: prior vertices and indices are
a preserved prefix, appended vertices follow unchanged, each appended index
is offset by the prior vertex count, and the vertex counts add. -/
theorem geometry_append_concatenates (shaders : ShaderStore) (g : Geometry)
    (vc : Nat) (vs : List Float32) (idx : List Nat) (pt : PrimitiveType)
    (attrs : List String) (layout : BufferLayout)
    (hne : g.vertexCount ≠ 0)
    (_hpt : pt = g.primitiveType) (_hattrs : attrs = g.vertexAttributes)
    (_hlayout : layout = g.bufferLayout)
    (_hil : layout = BufferLayout.interleavedBuffer)
    (hcomb : g.vertexCount + vc ≤ 0xFFFF)
    (hidx : ∀ i ∈ idx, i < vc) :
    ((g.Append shaders vc vs idx pt attrs layout).1).vertices
        = g.vertices ++ vs ∧
    ((g.Append shaders vc vs idx pt attrs layout).1).indices
        = g.indices ++ idx.map (fun i => i + g.vertexCount) ∧
    ((g.Append shaders vc vs idx pt attrs layout).1).vertexCount
        = g.vertexCount + vc := by
  unfold Geometry.Append
  rw [if_neg hne]
  dsimp only
  refine ⟨rfl, ?_, rfl⟩
  congr 1
  apply List.map_congr_left
  intro i hi
  have h1 : i < vc := hidx i hi
  have h2 : g.vertexCount % 65536 = g.vertexCount :=
    Nat.mod_eq_of_lt (by omega)
  rw [h2]
  exact Nat.mod_eq_of_lt (by omega)

/-- C10 witness: two compatible triangle geometries of three vertices each
are merged; the appended indices are shifted by 3. -/
theorem geometry_append_concatenates_witness :
    ((Geometry.Append ⟨[]⟩ 3 [7, 8, 9, 10, 11, 12] [0, 1, 2]
        PrimitiveType.triangles ["aPos"] BufferLayout.interleavedBuffer
        ⟨3, [1, 2, 3, 4, 5, 6], [0, 1, 2], PrimitiveType.triangles, ["aPos"],
          BufferLayout.interleavedBuffer⟩).1).vertices
      = [1, 2, 3, 4, 5, 6] ++ [7, 8, 9, 10, 11, 12] ∧
    ((Geometry.Append ⟨[]⟩ 3 [7, 8, 9, 10, 11, 12] [0, 1, 2]
        PrimitiveType.triangles ["aPos"] BufferLayout.interleavedBuffer
        ⟨3, [1, 2, 3, 4, 5, 6], [0, 1, 2], PrimitiveType.triangles, ["aPos"],
          BufferLayout.interleavedBuffer⟩).1).indices
      = [0, 1, 2] ++ List.map (fun i => i + 3) [0, 1, 2] ∧
    ((Geometry.Append ⟨[]⟩ 3 [7, 8, 9, 10, 11, 12] [0, 1, 2]
        PrimitiveType.triangles ["aPos"] BufferLayout.interleavedBuffer
        ⟨3, [1, 2, 3, 4, 5, 6], [0, 1, 2], PrimitiveType.triangles, ["aPos"],
          BufferLayout.interleavedBuffer⟩).1).vertexCount = 3 + 3 :=
  geometry_append_concatenates ⟨[]⟩
    ⟨3, [1, 2, 3, 4, 5, 6], [0, 1, 2], PrimitiveType.triangles, ["aPos"],
      BufferLayout.interleavedBuffer⟩
    3 [7, 8, 9, 10, 11, 12] [0, 1, 2] PrimitiveType.triangles ["aPos"]
    BufferLayout.interleavedBuffer (by decide) rfl rfl rfl rfl (by decide)
    (by decide)

/-- C8: evaluation at the failing input.  A geometry with 16777217 vertex
floats and `vertexCount = 2` (one attribute, no indices, `POINTS`) passes
`AssertValidGeometry` although 16777217 is not divisible by 2: the
divisibility test `float32(len(vertices))/float32(vertexCount) ==
float32(vertexSize)` loses the low bit when rounding 2^24+1 to binary32
(16777217 rounds to 16777216, whose half equals the truncated vertex size
8388608), so no assertion fires and the invalid input is accepted. -/
theorem geometry_validation_accepts_nondivisible_floats :
    assertValidGeometry ⟨[]⟩ "" 2 (List.replicate 16777217 0) []
        PrimitiveType.points ["aPos"] = true ∧
    16777217 % 2 ≠ 0 := by
  refine ⟨?_, by decide⟩
  unfold assertValidGeometry
  simp only [List.length_replicate]
  decide

end Nora
